import Mathlib

/-
  Verification of the marlarky text-generation engine.

  This file gives a shallow embedding, in Lean 4, of the parts of the
  TypeScript source that the verified properties concern:

  * the Mulberry32 seedable RNG (`src/rng/seedable-rng.ts`),
  * the generation context and its scope-boundary clears
    (`src/types/context.ts`),
  * the lexicon store: term-set weighting, correlation application and
    pattern weighting (`src/lexicon/lexicon-store.ts`),
  * the rule engine: constraint and invariant evaluation
    (`src/rules/rule-engine.ts`),
  * the text normalization helpers (`src/morphology/normalize.ts`),
  * the `TextGenerator` retry-and-degrade loop and session state
    (`src/core/text-generator.ts`).

  Modelling conventions:
  * JavaScript strings are modelled as `List Char` (`Str`); only ASCII
    behaviour is relied on, matching the generator's output alphabet.
  * JavaScript numbers are modelled as `ℚ` where they carry weights or
    rates, and as `ℕ` where the source only ever holds non-negative
    integers (counts, attempt limits, seeds).  32-bit coercions that the
    bitwise operators of JavaScript perform are made explicit with
    `% 2^32`.
  * A JavaScript `Map` is modelled as an insertion-ordered association
    list; `mapSet` overwrites in place like `Map.set`.
  * Optional object fields are modelled with `Option`; optional list or
    record fields whose absence the code treats exactly like emptiness
    are modelled as plain lists.
  * `throw` is modelled with `Except Str`.
  * The RNG consumption of sampling functions is made explicit: a
    function that draws from the RNG takes the drawn rational (or the
    RNG state) as an argument.
-/

namespace Marlarky

/-- JavaScript strings, modelled as lists of characters. -/
abbrev Str := List Char

/-- Shorthand to write a `Str` from a Lean string literal. -/
def str (s : String) : Str := s.toList

/-- The characters matched by the JavaScript regex class `\s`
(ASCII fragment: space, tab, line feed, vertical tab, form feed,
carriage return). -/
def jsWs (c : Char) : Bool :=
  c = ' ' || c = '\t' || c = '\n' || c = '\x0b' || c = '\x0c' || c = '\r'

/-- ASCII letter test, the JavaScript regex class `[a-zA-Z]`. -/
def isAsciiLetter (c : Char) : Bool :=
  ('a' ≤ c && c ≤ 'z') || ('A' ≤ c && c ≤ 'Z')

/-- `String.prototype.toUpperCase` restricted to one ASCII character. -/
def jsToUpperChar (c : Char) : Char :=
  match c with
  | 'a' => 'A' | 'b' => 'B' | 'c' => 'C' | 'd' => 'D' | 'e' => 'E'
  | 'f' => 'F' | 'g' => 'G' | 'h' => 'H' | 'i' => 'I' | 'j' => 'J'
  | 'k' => 'K' | 'l' => 'L' | 'm' => 'M' | 'n' => 'N' | 'o' => 'O'
  | 'p' => 'P' | 'q' => 'Q' | 'r' => 'R' | 's' => 'S' | 't' => 'T'
  | 'u' => 'U' | 'v' => 'V' | 'w' => 'W' | 'x' => 'X' | 'y' => 'Y'
  | 'z' => 'Z' | other => other

/-- `String.prototype.toLowerCase` restricted to one ASCII character. -/
def jsToLowerChar (c : Char) : Char :=
  match c with
  | 'A' => 'a' | 'B' => 'b' | 'C' => 'c' | 'D' => 'd' | 'E' => 'e'
  | 'F' => 'f' | 'G' => 'g' | 'H' => 'h' | 'I' => 'i' | 'J' => 'j'
  | 'K' => 'k' | 'L' => 'l' | 'M' => 'm' | 'N' => 'n' | 'O' => 'o'
  | 'P' => 'p' | 'Q' => 'q' | 'R' => 'r' | 'S' => 's' | 'T' => 't'
  | 'U' => 'u' | 'V' => 'v' | 'W' => 'w' | 'X' => 'x' | 'Y' => 'y'
  | 'Z' => 'z' | other => other

/-- `String.prototype.toLowerCase` on a whole (ASCII) string. -/
def jsToLower (s : Str) : Str := s.map jsToLowerChar

/-- Insertion-ordered association list standing in for a JavaScript
`Map` or plain-object record. -/
abbrev AList (k v : Type) := List (k × v)

/-- Insertion-ordered association list keyed by strings. -/
abbrev JsMap (v : Type) := AList Str v

/-- `Map.prototype.get`: the value bound to `k`, if any. -/
def mapGet {k v : Type} [BEq k] (m : AList k v) (key : k) : Option v :=
  (m.find? (fun e => e.1 == key)).map (fun e => e.2)

/-- `Map.prototype.set`: overwrite the binding of `key` in place, or
append a new binding. -/
def mapSet {k v : Type} [BEq k] (m : AList k v) (key : k) (x : v) : AList k v :=
  match m with
  | [] => [(key, x)]
  | e :: rest => if e.1 == key then (key, x) :: rest else e :: mapSet rest key x

/-- JavaScript truthiness of an optional string: `undefined` and the
empty string are falsy. -/
def truthy? (o : Option Str) : Option Str :=
  match o with
  | some s => if s.isEmpty then none else some s
  | none => none

/- ----------------------------------------------------------------
   Lexicon data model (src/types/lexicon.ts)
   ---------------------------------------------------------------- -/

/-- Part of speech (`POS` in src/types/lexicon.ts). -/
inductive POS where
  | noun | verb | adj | adv | prep | conj | intj | det
deriving DecidableEq, Repr

/-- One term of a term set.  Features are an association list of
string-valued keys, enough for the feature-equality filter that
`sampleTerm` performs. -/
structure Term where
  value : Str
  weight : Option ℚ := none
  features : JsMap Str := []
  tags : Option (List Str) := none
deriving DecidableEq, Repr

/-- A named pool of terms (`TermSet`). -/
structure TermSet where
  pos : POS
  tags : Option (List Str) := none
  terms : List Term
deriving DecidableEq, Repr

/-- Pattern type tag (`Pattern['type']`). -/
inductive PatternType where
  | sentence | nounPhrase | verbPhrase | prepPhrase | adjPhrase | advPhrase | clause
deriving DecidableEq, Repr

/-- A syntactic pattern (`Pattern`). -/
structure Pattern where
  type : PatternType
  slots : List Str := []
  weight : Option ℚ := none
  tags : Option (List Str) := none
deriving DecidableEq, Repr

/-- One `{ key, weight }` entry of a distribution. -/
structure DistributionEntry where
  key : Str
  weight : ℚ
deriving DecidableEq, Repr

/-- Correlation trigger condition (`CorrelationCondition`). -/
structure CorrelationCondition where
  chosenTermSet : Option Str := none
  chosenTag : Option Str := none
  chosenValue : Option Str := none
  usedPattern : Option Str := none
deriving DecidableEq, Repr

/-- One boost of a correlation (`CorrelationBoost`). -/
structure CorrelationBoost where
  termSet : Option Str := none
  pattern : Option Str := none
  weightDelta : ℚ
deriving DecidableEq, Repr

/-- Scope of a correlation effect or of a choice event. -/
inductive CorrScope where
  | token | phrase | sentence | paragraph
deriving DecidableEq, Repr

/-- The scope keyword as it appears in bias-table keys. -/
def CorrScope.toStr : CorrScope → Str
  | .token => str ("token")
  | .phrase => str ("phrase")
  | .sentence => str ("sentence")
  | .paragraph => str ("paragraph")

/-- A correlation rule (`Correlation`); `when` is named `trigger` here
because `when` reads poorly as a Lean field name. -/
structure Correlation where
  trigger : CorrelationCondition
  thenBoost : List CorrelationBoost
  scope : CorrScope
deriving DecidableEq, Repr

/-- Constraint enforcement level. -/
inductive CLevel where
  | hard | soft
deriving DecidableEq, Repr

/-- Constraint / invariant scope. -/
inductive CScope where
  | token | phrase | clause | sentence | paragraph | text
deriving DecidableEq, Repr

/-- Constraint rule type. -/
inductive CType where
  | noRepeat | maxCount | minCount | required | forbidden | custom
deriving DecidableEq, Repr

/-- A generation constraint (`Constraint`). -/
structure Constraint where
  id : Str
  level : CLevel
  scope : CScope
  type : CType
  target : Str
  value : Option ℚ := none
  customFn : Option Str := none
deriving DecidableEq, Repr

/-- Invariant rule type. -/
inductive InvType where
  | capitalization | punctuation | whitespace | agreement | custom
deriving DecidableEq, Repr

/-- A rendered-text invariant (`Invariant`). -/
structure Invariant where
  id : Str
  type : InvType
  scope : CScope
  customFn : Option Str := none
deriving DecidableEq, Repr

/-- An archetype (`Archetype`); `distributions` holds the named
distribution references (keyed by role, e.g. `termSetBias`), and
`overrides` the numeric config overrides. -/
structure Archetype where
  tags : Option (List Str) := none
  distributions : JsMap Str := []
  overrides : JsMap ℚ := []
deriving DecidableEq, Repr

/-- A relation edge (`Relation`); the source field names `from`/`to`
are Lean keywords and are rendered as `src`/`dst`. -/
structure Relation where
  src : Str
  relType : Str
  dst : Str
  weight : Option ℚ := none
deriving DecidableEq, Repr

/-- A lexical item produced by sampling (`LexicalItem`). -/
structure LexicalItem where
  value : Str
  pos : POS
  termSetId : Option Str := none
  features : JsMap Str := []
  tags : Option (List Str) := none
deriving DecidableEq, Repr

/-- The lexicon root object (`Lexicon`).  The record-typed fields
(`termSets`, `patterns`, `distributions`, `archetypes`) are modelled as
insertion-ordered association lists; the code treats a missing field
and an empty record the same way in everything modelled here. -/
structure Lexicon where
  id : Str
  version : Option Str := none
  language : Str
  termSets : JsMap TermSet := []
  patterns : JsMap Pattern := []
  distributions : JsMap (List DistributionEntry) := []
  correlations : List Correlation := []
  constraints : List Constraint := []
  invariants : List Invariant := []
  archetypes : JsMap Archetype := []
  relations : List Relation := []
deriving DecidableEq, Repr

/-- Query for sampling terms (`TermQuery`). -/
structure TermQuery where
  pos : POS
  tags : Option (List Str) := none
  termSetIds : Option (List Str) := none
  features : JsMap Str := []
  fallbackToFaker : Bool
  exclude : Option (List Str) := none
deriving DecidableEq, Repr

/-- Query for sampling patterns (`PatternQuery`). -/
structure PatternQuery where
  type : PatternType
  tags : Option (List Str) := none
  patternIds : Option (List Str) := none
deriving DecidableEq, Repr

/-- Kind tag of a choice event. -/
inductive CEType where
  | term | pattern | template
deriving DecidableEq, Repr

/-- The chosen item of a choice event (`LexicalItem | Pattern | string`
in the source). -/
inductive ChoiceItem where
  | term (li : LexicalItem)
  | pat (p : Pattern)
  | strv (s : Str)
deriving DecidableEq, Repr

/-- A recorded choice (`ChoiceEvent`). -/
structure ChoiceEvent where
  type : CEType
  item : ChoiceItem
  termSetId : Option Str := none
  patternId : Option Str := none
  scope : CorrScope
deriving DecidableEq, Repr

/- ----------------------------------------------------------------
   Generation context (src/types/context.ts)
   ---------------------------------------------------------------- -/

/-- Grammatical number. -/
inductive GNumber where
  | singular | plural
deriving DecidableEq, Repr

/-- Phrase features for agreement (`PhraseFeatures`). -/
structure PhraseFeatures where
  number : GNumber
  person : ℕ
deriving DecidableEq, Repr

/-- History of choices made during generation (`GenerationHistory`). -/
structure GenerationHistory where
  chosenTermSets : List Str := []
  chosenTerms : AList POS (List LexicalItem) := []
  chosenPatterns : List Str := []
  events : List ChoiceEvent := []
deriving DecidableEq, Repr

/-- An entry of the scope stack (`ScopeEntry`). -/
structure ScopeEntry where
  type : CScope
  startIndex : ℕ
deriving DecidableEq, Repr

/-- The per-generation mutable context (`GenerationContext`). -/
structure GenerationContext where
  seed : ℕ
  archetype : Str
  activeTags : List Str := []
  biases : JsMap ℚ := []
  history : GenerationHistory := {}
  scopeStack : List ScopeEntry := []
  constraints : List Constraint := []
  invariants : List Invariant := []
  sentenceIndex : ℕ := 0
  paragraphIndex : ℕ := 0
  currentSentenceTokens : List Str := []
  currentSubjectFeatures : Option PhraseFeatures := none
  relationHints : List Str := []
  retryCount : ℕ := 0
deriving DecidableEq, Repr

/-- `createContext`: a fresh generation context. -/
def createContext (seed : ℕ) (archetype : Str := str ("default")) : GenerationContext :=
  { seed := seed
    archetype := archetype
    activeTags := []
    biases := []
    history := { chosenTermSets := [], chosenTerms := [], chosenPatterns := [], events := [] }
    scopeStack := [{ type := CScope.text, startIndex := 0 }]
    constraints := []
    invariants := []
    sentenceIndex := 0
    paragraphIndex := 0
    currentSentenceTokens := []
    currentSubjectFeatures := none
    relationHints := []
    retryCount := 0 }

/-- `clearSentenceState`: reset per-sentence fields and delete every
bias entry whose key starts with `sentence:`. -/
def clearSentenceState (ctx : GenerationContext) : GenerationContext :=
  { ctx with
    currentSentenceTokens := []
    currentSubjectFeatures := none
    relationHints := []
    biases := ctx.biases.filter (fun e => !((str ("sentence:")).isPrefixOf e.1)) }

/-- `clearParagraphState`: `clearSentenceState`, reset the sentence
index, and delete every bias entry whose key starts with `paragraph:`. -/
def clearParagraphState (ctx : GenerationContext) : GenerationContext :=
  let ctx1 := clearSentenceState ctx
  { ctx1 with
    sentenceIndex := 0
    biases := ctx1.biases.filter (fun e => !((str ("paragraph:")).isPrefixOf e.1)) }

/- ----------------------------------------------------------------
   Seedable RNG (src/rng/seedable-rng.ts)
   ---------------------------------------------------------------- -/

/-- 2^32, the modulus of all JavaScript 32-bit coercions. -/
def U32 : ℕ := 4294967296

/-- `Math.imul`: 32-bit multiplication.  The signed interpretation
JavaScript gives the result only matters modulo 2^32 downstream. -/
def imul (a b : ℕ) : ℕ := (a * b) % U32

/-- One step of the Mulberry32 generator.  The source keeps the raw
accumulated seed; every use coerces it to 32 bits, so carrying the
state modulo 2^32 yields the same value stream. -/
def mulberry32Step (state : ℕ) : ℕ × ℚ :=
  let s := (state + 0x6D2B79F5) % U32
  let t1 := imul (Nat.xor s (s >>> 15)) (s ||| 1)
  let t2 := Nat.xor t1 ((t1 + imul (Nat.xor t1 (t1 >>> 7)) (t1 ||| 61)) % U32)
  let v := Nat.xor t2 (t2 >>> 14)
  (s, (v : ℚ) / (U32 : ℚ))

/-- `float()`: advance the RNG state and produce the draw in `[0,1)`. -/
def rngFloat (state : ℕ) : ℕ × ℚ := mulberry32Step state

/-- A `{ item, weight }` pair (`WeightedItem<T>`). -/
structure WeightedItem (α : Type) where
  item : α
  weight : ℚ
deriving DecidableEq, Repr

/-- The subtraction walk of `weightedPick`: subtract weights from the
running draw and stop at the first item driving it to zero or below. -/
def weightedPickWalk {α : Type} : List (WeightedItem α) → ℚ → Option α
  | [], _ => none
  | i :: rest, random =>
    if random - i.weight ≤ 0 then some i.item else weightedPickWalk rest (random - i.weight)

/-- The positively-weighted sublist that `weightedPick` samples from. -/
def validWeightedItems {α : Type} (items : List (WeightedItem α)) : List (WeightedItem α) :=
  items.filter (fun i => decide (0 < i.weight))

/-- `weightedPick(items)`, with the RNG draw `r` (the value of
`this.float()`) passed explicitly. -/
def weightedPick {α : Type} (items : List (WeightedItem α)) (r : ℚ) : Except Str α :=
  if items.isEmpty then .error (str ("Cannot pick from empty weighted list"))
  else
    match validWeightedItems items with
    | [] => .error (str ("All weights are zero or negative"))
    | v :: vs =>
      let totalWeight := (v :: vs).foldl (fun acc i => acc + i.weight) 0
      let random := r * totalWeight
      match weightedPickWalk (v :: vs) random with
      | some x => .ok x
      | none => .ok (((v :: vs).getLast (List.cons_ne_nil v vs)).item)

/- ----------------------------------------------------------------
   Lexicon store (src/lexicon/lexicon-store.ts)
   ---------------------------------------------------------------- -/

/-- `getArchetype`. -/
def getArchetype (lexicon : Option Lexicon) (name : Str) : Option Archetype :=
  lexicon.bind (fun l => mapGet l.archetypes name)

/-- `getDistribution`. -/
def getDistribution (lexicon : Option Lexicon) (id : Str) : Option (List DistributionEntry) :=
  lexicon.bind (fun l => mapGet l.distributions id)

/-- The `termSetBias` distribution entry for term set `id` under the
active archetype, if the whole lookup chain of `sampleTerm` succeeds:
archetype, its `termSetBias` distribution reference, the distribution,
and an entry whose key is `id`. -/
def termSetBiasEntry (lexicon : Option Lexicon) (archetype : Str) (id : Str) :
    Option DistributionEntry :=
  match getArchetype lexicon archetype with
  | none => none
  | some a =>
    match truthy? (mapGet a.distributions (str ("termSetBias"))) with
    | none => none
    | some distName =>
      match getDistribution lexicon distName with
      | none => none
      | some dist => dist.find? (fun e => e.key == id)

/-- The candidate term-set weight computed inside `sampleTerm`:
start from 1, multiply by the matching entry of the active archetype's
`termSetBias` distribution if there is one, add the context bias stored
under the bare set id, and clamp below at 0. -/
def termSetWeight (lexicon : Option Lexicon) (ctx : GenerationContext) (id : Str) : ℚ :=
  let base : ℚ := 1
  let afterDist :=
    match termSetBiasEntry lexicon ctx.archetype id with
    | none => base
    | some entry => base * entry.weight
  let withBias := afterDist + ((mapGet ctx.biases id).getD 0)
  max 0 withBias

/-- Modelled from the spec's words for the term-set weighting step
(§4.3 sampleTerm (b)): weight each candidate set as
`1 + activeArchetypeDistributionWeight(setId) + ctx.bias[setId]`,
clamped at 0; an absent distribution entry contributes 0.  This is the
comparison definition for the refinement check of the corresponding
claim; `termSetWeight` above is the code's computation. -/
def specTermSetWeight (lexicon : Option Lexicon) (ctx : GenerationContext) (id : Str) : ℚ :=
  let distWeight :=
    match termSetBiasEntry lexicon ctx.archetype id with
    | none => 0
    | some entry => entry.weight
  max 0 (1 + distWeight + ((mapGet ctx.biases id).getD 0))

/-- The per-set keep test of the scan branch of `findMatchingTermSets`. -/
def termSetMatchesScan (q : TermQuery) (ctx : GenerationContext) (set : TermSet) : Bool :=
  if set.pos != q.pos then false
  else
    let tagsOk :=
      match q.tags with
      | some qtags =>
        if qtags.isEmpty then true
        else
          let setTags := set.tags.getD []
          qtags.any (fun t => setTags.contains t)
      | none => true
    if !tagsOk then false
    else
      let activeOk :=
        match set.tags with
        | some setTags =>
          if ctx.activeTags.isEmpty then true
          else
            let hasActiveTag := ctx.activeTags.any (fun t => setTags.contains t)
            if !hasActiveTag && (match q.tags with | some qt => !qt.isEmpty | none => false) then false
            else true
        | none => true
      activeOk

/-- `findMatchingTermSets`. -/
def findMatchingTermSets (lex : Lexicon) (q : TermQuery) (ctx : GenerationContext) :
    List (Str × TermSet) :=
  match q.termSetIds with
  | some ids =>
    if ids.isEmpty then
      lex.termSets.filter (fun e => termSetMatchesScan q ctx e.2)
    else
      ids.filterMap (fun i =>
        match mapGet lex.termSets i with
        | some s => if s.pos = q.pos then some (i, s) else none
        | none => none)
  | none => lex.termSets.filter (fun e => termSetMatchesScan q ctx e.2)

/-- The per-term filter of `sampleTerm`: required feature equality and
the query's exclusion list. -/
def termMatchesQuery (q : TermQuery) (t : Term) : Bool :=
  (q.features.all (fun e => mapGet t.features e.1 == some e.2)) &&
  !((q.exclude.getD []).contains t.value)

/-- `sampleTerm(termQuery, ctx)`, with the two RNG draws it consumes
(term-set pick and term pick) passed explicitly. -/
def sampleTerm (lexicon : Option Lexicon) (q : TermQuery) (ctx : GenerationContext)
    (r1 r2 : ℚ) : Except Str (Option LexicalItem) :=
  match lexicon with
  | none => .ok none
  | some lex =>
    let candidateSets := findMatchingTermSets lex q ctx
    if candidateSets.isEmpty then .ok none
    else
      let weightedSets := candidateSets.map
        (fun e => WeightedItem.mk e (termSetWeight (some lex) ctx e.1))
      let validWeightedSets := weightedSets.filter (fun w => decide (0 < w.weight))
      if validWeightedSets.isEmpty then .ok none
      else
        match weightedPick validWeightedSets r1 with
        | .error e => .error e
        | .ok (termSetId, set) =>
          let terms := set.terms.filter (termMatchesQuery q)
          if terms.isEmpty then .ok none
          else
            let weightedTerms := terms.map (fun t => WeightedItem.mk t (t.weight.getD 1))
            match weightedPick weightedTerms r2 with
            | .error e => .error e
            | .ok term =>
              .ok (some { value := term.value
                          pos := q.pos
                          termSetId := some termSetId
                          features := term.features
                          tags := match term.tags with
                                  | some ts => some ts
                                  | none => set.tags })

/-- The candidate pattern weight computed inside `samplePattern`:
the pattern's own weight (default 1) plus the context bias stored under
the bare `pattern:<id>` key, clamped below at 0. -/
def patternWeight (ctx : GenerationContext) (id : Str) (p : Pattern) : ℚ :=
  max 0 ((p.weight.getD 1) + ((mapGet ctx.biases (str ("pattern:") ++ id)).getD 0))

/-- `samplePattern(patternQuery, ctx)`, with the RNG draw passed
explicitly. -/
def samplePattern (lexicon : Option Lexicon) (q : PatternQuery) (ctx : GenerationContext)
    (r : ℚ) : Except Str (Option Pattern) :=
  match lexicon with
  | none => .ok none
  | some lex =>
    let candidates :=
      match q.patternIds with
      | some ids =>
        if ids.isEmpty then [] else
          ids.filterMap (fun i =>
            match mapGet lex.patterns i with
            | some p => if p.type = q.type then some (i, p) else none
            | none => none)
      | none =>
        lex.patterns.filter (fun e =>
          e.2.type = q.type &&
          (match q.tags with
           | some qtags =>
             if qtags.isEmpty then true
             else qtags.any (fun t => (e.2.tags.getD []).contains t)
           | none => true))
    if candidates.isEmpty then .ok none
    else
      let weighted := candidates.map (fun e => WeightedItem.mk e.2 (patternWeight ctx e.1 e.2))
      let validWeighted := weighted.filter (fun w => decide (0 < w.weight))
      if validWeighted.isEmpty then .ok none
      else
        match weightedPick validWeighted r with
        | .error e => .error e
        | .ok p => .ok (some p)

/-- `matchesCorrelationCondition`: any one of the four trigger kinds
firing makes the rule match. -/
def matchesCorrelationCondition (condition : CorrelationCondition) (chosen : ChoiceEvent) :
    Bool :=
  let byTermSet :=
    match truthy? condition.chosenTermSet with
    | some t => chosen.termSetId == some t
    | none => false
  let byTag :=
    match truthy? condition.chosenTag with
    | some tag =>
      (chosen.type == CEType.term) &&
      (match chosen.item with
       | ChoiceItem.term li => (li.tags.getD []).contains tag
       | _ => false)
    | none => false
  let byValue :=
    match truthy? condition.chosenValue with
    | some v =>
      (chosen.type == CEType.term) &&
      (match chosen.item with
       | ChoiceItem.term li => li.value == v
       | _ => false)
    | none => false
  let byPattern :=
    match truthy? condition.usedPattern with
    | some p => chosen.patternId == some p
    | none => false
  byTermSet || byTag || byValue || byPattern

/-- Apply one boost of a fired correlation to the bias table: a
term-set target is written under the scope-prefixed key and again under
the bare key; a pattern target only under the scope-prefixed key. -/
def applyBoost (scope : CorrScope) (biases : JsMap ℚ) (boost : CorrelationBoost) : JsMap ℚ :=
  let pfx := scope.toStr ++ str (":")
  let biases1 :=
    match truthy? boost.termSet with
    | some t =>
      let key := pfx ++ t
      let b1 := mapSet biases key (((mapGet biases key).getD 0) + boost.weightDelta)
      mapSet b1 t (((mapGet b1 t).getD 0) + boost.weightDelta)
    | none => biases
  match truthy? boost.pattern with
  | some p =>
    let key := pfx ++ str ("pattern:") ++ p
    mapSet biases1 key (((mapGet biases1 key).getD 0) + boost.weightDelta)
  | none => biases1

/-- `applyCorrelations(ctx, chosen)`. -/
def applyCorrelations (lexicon : Option Lexicon) (ctx : GenerationContext)
    (chosen : ChoiceEvent) : GenerationContext :=
  match lexicon with
  | none => ctx
  | some lex =>
    let biases := lex.correlations.foldl
      (fun acc corr =>
        if matchesCorrelationCondition corr.trigger chosen then
          corr.thenBoost.foldl (applyBoost corr.scope) acc
        else acc)
      ctx.biases
    { ctx with biases := biases }

/- ----------------------------------------------------------------
   Text normalization (src/morphology/normalize.ts)
   ---------------------------------------------------------------- -/

/-- The character class `[.,!?;:)]` used when removing space before
punctuation and when joining tokens. -/
def isPunctCls (c : Char) : Bool :=
  c = '.' || c = ',' || c = '!' || c = '?' || c = ';' || c = ':' || c = ')'

/-- The character class `[.,!?;:]` used when inserting a space after
punctuation. -/
def isPunctSp (c : Char) : Bool :=
  c = '.' || c = ',' || c = '!' || c = '?' || c = ';' || c = ':'

/-- `replace(/\s+/g, ' ')`: collapse every whitespace run to one
space.  `inWs` records whether the previous character was part of a
whitespace run. -/
def collapseWs (inWs : Bool) : Str → Str
  | [] => []
  | c :: cs =>
    if jsWs c then
      if inWs then collapseWs true cs else ' ' :: collapseWs true cs
    else c :: collapseWs false cs

/-- `replace(/\s+([.,!?;:)])/g, '$1')`: drop a whitespace run that
immediately precedes punctuation.  `pending` accumulates the current
whitespace run. -/
def rmWsBeforePunct (pending : Str) : Str → Str
  | [] => pending
  | c :: cs =>
    if jsWs c then rmWsBeforePunct (pending ++ [c]) cs
    else if isPunctCls c then c :: rmWsBeforePunct [] cs
    else pending ++ c :: rmWsBeforePunct [] cs

/-- `replace(/\(\s+/g, '(')`: drop whitespace after an opening
parenthesis.  `afterParen` records that we are inside such a run. -/
def rmWsAfterParen (afterParen : Bool) : Str → Str
  | [] => []
  | c :: cs =>
    if afterParen && jsWs c then rmWsAfterParen true cs
    else c :: rmWsAfterParen (c = '(') cs

/-- `replace(/([.,!?;:])(?=[^\s])/g, '$1 ')`: insert a space after
punctuation that is directly followed by a non-whitespace character. -/
def addSpaceAfterPunct : Str → Str
  | [] => []
  | c :: cs =>
    if isPunctSp c then
      match cs with
      | [] => [c]
      | d :: _ => if jsWs d then c :: addSpaceAfterPunct cs
                  else c :: ' ' :: addSpaceAfterPunct cs
    else c :: addSpaceAfterPunct cs

/-- `String.prototype.trimEnd` (ASCII whitespace). -/
def trimEnd : Str → Str
  | [] => []
  | c :: cs =>
    match trimEnd cs with
    | [] => if jsWs c then [] else [c]
    | r => c :: r

/-- `String.prototype.trim` (ASCII whitespace). -/
def jsTrim (s : Str) : Str := trimEnd (s.dropWhile jsWs)

/-- `normalizeWhitespace`. -/
def normalizeWhitespace (s : Str) : Str :=
  jsTrim (addSpaceAfterPunct (rmWsAfterParen false (rmWsBeforePunct [] (collapseWs false s))))

/-- `capitalize`: uppercase the first character. -/
def capitalize : Str → Str
  | [] => []
  | c :: cs => jsToUpperChar c :: cs

/-- The terminal punctuation set of `ensureEndPunctuation`
(`['.', '!', '?', ';', ':']`). -/
def isTerminalPunct (c : Char) : Bool :=
  c = '.' || c = '!' || c = '?' || c = ';' || c = ':'

/-- `ensureEndPunctuation(text, defaultPunct = '.')`. -/
def ensureEndPunctuation (s : Str) (defaultPunct : Str := str (".")) : Str :=
  let trimmed := trimEnd s
  match trimmed.getLast? with
  | none => trimmed
  | some lastChar =>
    if isTerminalPunct lastChar then trimmed else trimmed ++ defaultPunct

/-- `isCapitalized`: the first ASCII letter, if any, is uppercase. -/
def isCapitalized (s : Str) : Bool :=
  if s.isEmpty then true
  else
    match s.find? isAsciiLetter with
    | none => true
    | some c => c == jsToUpperChar c

/-- The punctuation set accepted by `endsWithPunctuation`
(`['.', '!', '?', ';', ':', ',']`). -/
def isEndPunct (c : Char) : Bool :=
  c = '.' || c = '!' || c = '?' || c = ';' || c = ':' || c = ','

/-- `endsWithPunctuation`. -/
def endsWithPunctuation (s : Str) : Bool :=
  if s.isEmpty then true
  else
    match (trimEnd s).getLast? with
    | none => false
    | some c => isEndPunct c

/-- Whether the string contains two adjacent whitespace characters
(the JavaScript test `/\s{2,}/`). -/
def hasDoubleWs : Str → Bool
  | a :: b :: rest => (jsWs a && jsWs b) || hasDoubleWs (b :: rest)
  | _ => false

/-- `hasNoDoubleSpaces`. -/
def hasNoDoubleSpaces (s : Str) : Bool := !hasDoubleWs s

/-- `joinTokens`: join tokens with spaces, omitting the space before
punctuation and after an opening parenthesis. -/
def joinTokens (tokens : List Str) : Str :=
  match tokens with
  | [] => []
  | t0 :: rest =>
    rest.foldl
      (fun result token =>
        if (match token.head? with | some c => isPunctCls c | none => false) then
          result ++ token
        else if result.getLast? == some '(' then result ++ token
        else result ++ ' ' :: token)
      t0

/-- `formatSentence(text, punctuation = '.')`. -/
def formatSentence (s : Str) (punctuation : Str := str (".")) : Str :=
  ensureEndPunctuation (capitalize (normalizeWhitespace s)) punctuation

/-- `Array.prototype.join(' ')`. -/
def joinWithSpace : List Str → Str
  | [] => []
  | [s] => s
  | s :: rest => s ++ ' ' :: joinWithSpace rest

/-- `formatParagraph(sentences)`. -/
def formatParagraph (sentences : List Str) : Str :=
  joinWithSpace (sentences.map (fun s => formatSentence s))

/-- Whether a string starts with a whitespace character. -/
def headWs (l : Str) : Bool :=
  match l with
  | [] => false
  | c :: _ => jsWs c

/-- Whether a string ends with a whitespace character. -/
def lastWs (l : Str) : Bool :=
  match l.getLast? with
  | some c => jsWs c
  | none => false

/-- Whether a string starts with an ASCII letter. -/
def headIsAlpha (l : Str) : Bool :=
  match l with
  | [] => false
  | c :: _ => isAsciiLetter c

/- ----------------------------------------------------------------
   Generator configuration (src/types/config.ts)
   ---------------------------------------------------------------- -/

/-- Sentence type weights (`SentenceTypeWeights`). -/
structure SentenceTypeWeights where
  simpleDeclarative : ℚ
  compound : ℚ
  introAdverbial : ℚ
  subordinate : ℚ
  interjection : ℚ
  question : ℚ
deriving DecidableEq, Repr

/-- Generator configuration (`GeneratorConfig`).  Counts and attempt
limits, which the source only ever holds as non-negative integers, are
modelled as `ℕ`; rates and weights as `ℚ`.  The out-of-scope
`outputTransforms` field is omitted. -/
structure GeneratorConfig where
  sentenceTypeWeights : SentenceTypeWeights
  minWordsPerSentence : ℕ
  maxWordsPerSentence : ℕ
  avgSentenceLength : ℚ
  minSentencesPerParagraph : ℕ
  maxSentencesPerParagraph : ℕ
  interjectionRate : ℚ
  subordinateClauseRate : ℚ
  relativeClauseRate : ℚ
  questionRate : ℚ
  compoundRate : ℚ
  maxPPChain : ℕ
  maxAdjectivesPerNoun : ℕ
  maxAdverbsPerVerb : ℕ
  maxSentenceAttempts : ℕ
  maxPhraseAttempts : ℕ
  enableTrace : Bool
  strictMode : Bool
  determiners : List Str
  subjectPronouns : List Str
  objectPronouns : List Str
  possessiveDeterminers : List Str
  modals : List Str
  subordinators : List Str
  relatives : List Str
  coordinators : List Str
  transitions : List Str
  interjections : List Str
deriving DecidableEq, Repr

/-- `DEFAULT_CONFIG`. -/
def DEFAULT_CONFIG : GeneratorConfig :=
  { sentenceTypeWeights :=
      { simpleDeclarative := 45, compound := 15, introAdverbial := 12
        subordinate := 15, interjection := 3, question := 10 }
    minWordsPerSentence := 5
    maxWordsPerSentence := 25
    avgSentenceLength := 12
    minSentencesPerParagraph := 2
    maxSentencesPerParagraph := 7
    interjectionRate := 3 / 100
    subordinateClauseRate := 15 / 100
    relativeClauseRate := 10 / 100
    questionRate := 10 / 100
    compoundRate := 15 / 100
    maxPPChain := 2
    maxAdjectivesPerNoun := 2
    maxAdverbsPerVerb := 1
    maxSentenceAttempts := 25
    maxPhraseAttempts := 10
    enableTrace := false
    strictMode := false
    determiners := (["the", "a", "an", "this", "that", "these", "those", "my",
      "your", "his", "her", "its", "our", "their", "some", "any", "no", "every",
      "each", "all", "both", "few", "many", "several"]).map str
    subjectPronouns := (["I", "you", "he", "she", "it", "we", "they"]).map str
    objectPronouns := (["me", "you", "him", "her", "it", "us", "them"]).map str
    possessiveDeterminers := (["my", "your", "his", "her", "its", "our", "their"]).map str
    modals := (["can", "could", "may", "might", "must", "shall", "should",
      "will", "would"]).map str
    subordinators := (["after", "although", "as", "because", "before", "if",
      "once", "since", "than", "that", "though", "unless", "until", "when",
      "whenever", "where", "wherever", "while"]).map str
    relatives := (["who", "whom", "whose", "which", "that"]).map str
    coordinators := (["and", "but", "or", "nor", "for", "yet", "so"]).map str
    transitions := (["however", "therefore", "moreover", "furthermore",
      "meanwhile", "consequently", "nevertheless", "otherwise", "accordingly",
      "indeed", "certainly", "naturally", "fortunately", "unfortunately",
      "surprisingly", "generally", "specifically", "particularly"]).map str
    interjections := (["oh", "ah", "well", "wow", "hey", "alas", "indeed",
      "certainly", "surely", "naturally"]).map str }

/-- `mergeConfig`: with no user config, the defaults.  A full user
config replaces every field (the partial-merge cases of the source are
not exercised by the verified properties). -/
def mergeConfig (userConfig : Option GeneratorConfig) : GeneratorConfig :=
  match userConfig with
  | none => DEFAULT_CONFIG
  | some c => c

/- ----------------------------------------------------------------
   Rule engine (src/rules/rule-engine.ts)
   ---------------------------------------------------------------- -/

/-- Result of evaluating one constraint.  Diagnostic message strings
are not modelled; nothing downstream reads them. -/
structure ConstraintResult where
  id : Str
  passed : Bool
deriving DecidableEq, Repr

/-- Result of evaluating one invariant. -/
structure InvariantResult where
  id : Str
  passed : Bool
deriving DecidableEq, Repr

/-- Result of `validate`. -/
structure ValidationResult where
  valid : Bool
  constraintResults : List ConstraintResult
  invariantResults : List InvariantResult
  hardConstraintsFailed : List Str
  softConstraintsFailed : List Str
  invariantsFailed : List Str
deriving DecidableEq, Repr

/-- Parse the POS name embedded in a `pos:<p>` constraint target. -/
def posFromStr (s : Str) : Option POS :=
  if s == str ("noun") then some POS.noun
  else if s == str ("verb") then some POS.verb
  else if s == str ("adj") then some POS.adj
  else if s == str ("adv") then some POS.adv
  else if s == str ("prep") then some POS.prep
  else if s == str ("conj") then some POS.conj
  else if s == str ("intj") then some POS.intj
  else if s == str ("det") then some POS.det
  else none

/-- Whether a list of strings contains a duplicate (the
`values.length !== new Set(values).size` test). -/
def hasDupStr (l : List Str) : Bool := decide (l.length ≠ l.dedup.length)

/-- `evaluateNoRepeat`. -/
def evaluateNoRepeat (constraint : Constraint) (ctx : GenerationContext)
    (tokens : List Str) : ConstraintResult :=
  let target := constraint.target
  if (str ("pos:")).isPrefixOf target then
    let posTerms :=
      match posFromStr (target.drop 4) with
      | some pos => (mapGet ctx.history.chosenTerms pos).getD []
      | none => []
    let values := posTerms.map (fun t => jsToLower t.value)
    if hasDupStr values then { id := constraint.id, passed := false }
    else { id := constraint.id, passed := true }
  else if (str ("termSet:")).isPrefixOf target then
    let termSetId := target.drop 8
    let count := ctx.history.chosenTermSets.countP (fun ts => ts == termSetId)
    if 1 < count then { id := constraint.id, passed := false }
    else { id := constraint.id, passed := true }
  else
    let tokenLower := tokens.map jsToLower
    if hasDupStr tokenLower then { id := constraint.id, passed := false }
    else { id := constraint.id, passed := true }

/-- `evaluateMaxCount`.  For target `PP` the source counts the tokens
found in `config.determiners` (the comment announces prepositions, the
code uses the determiner list). -/
def evaluateMaxCount (config : GeneratorConfig) (constraint : Constraint)
    (tokens : List Str) : ConstraintResult :=
  let target := constraint.target
  let maxValue := constraint.value.getD 1
  if target == str ("PP") then
    let count := tokens.countP (fun t => config.determiners.contains (jsToLower t))
    if maxValue < (count : ℚ) then { id := constraint.id, passed := false }
    else { id := constraint.id, passed := true }
  else if target == str ("words") then
    if maxValue < (tokens.length : ℚ) then { id := constraint.id, passed := false }
    else { id := constraint.id, passed := true }
  else { id := constraint.id, passed := true }

/-- `evaluateMinCount`. -/
def evaluateMinCount (constraint : Constraint) (tokens : List Str) : ConstraintResult :=
  let minValue := constraint.value.getD 1
  if constraint.target == str ("words") then
    if (tokens.length : ℚ) < minValue then { id := constraint.id, passed := false }
    else { id := constraint.id, passed := true }
  else { id := constraint.id, passed := true }

/-- `evaluateRequired`. -/
def evaluateRequired (constraint : Constraint) (ctx : GenerationContext) : ConstraintResult :=
  let target := constraint.target
  if (str ("pos:")).isPrefixOf target then
    let posTerms :=
      match posFromStr (target.drop 4) with
      | some pos => (mapGet ctx.history.chosenTerms pos).getD []
      | none => []
    if posTerms.isEmpty then { id := constraint.id, passed := false }
    else { id := constraint.id, passed := true }
  else { id := constraint.id, passed := true }

/-- `evaluateForbidden`. -/
def evaluateForbidden (constraint : Constraint) (tokens : List Str) : ConstraintResult :=
  let tokenLower := tokens.map jsToLower
  if tokenLower.contains (jsToLower constraint.target) then
    { id := constraint.id, passed := false }
  else { id := constraint.id, passed := true }

/-- `evaluateConstraint`: dispatch on the constraint type; `custom` is
a declared no-op. -/
def evaluateConstraint (config : GeneratorConfig) (constraint : Constraint)
    (ctx : GenerationContext) (tokens : List Str) : ConstraintResult :=
  match constraint.type with
  | CType.noRepeat => evaluateNoRepeat constraint ctx tokens
  | CType.maxCount => evaluateMaxCount config constraint tokens
  | CType.minCount => evaluateMinCount constraint tokens
  | CType.required => evaluateRequired constraint ctx
  | CType.forbidden => evaluateForbidden constraint tokens
  | CType.custom => { id := constraint.id, passed := true }

/-- `evaluateConstraints`: only constraints of the given scope are
evaluated. -/
def evaluateConstraints (config : GeneratorConfig) (constraints : List Constraint)
    (ctx : GenerationContext) (tokens : List Str) (scope : CScope) :
    List ConstraintResult :=
  (constraints.filter (fun c => c.scope == scope)).map
    (fun c => evaluateConstraint config c ctx tokens)

/-- `evaluateInvariant`. -/
def evaluateInvariant (invariant : Invariant) (text : Str) : InvariantResult :=
  match invariant.type with
  | InvType.capitalization => { id := invariant.id, passed := isCapitalized text }
  | InvType.punctuation => { id := invariant.id, passed := endsWithPunctuation text }
  | InvType.whitespace => { id := invariant.id, passed := hasNoDoubleSpaces text }
  | InvType.agreement => { id := invariant.id, passed := true }
  | InvType.custom => { id := invariant.id, passed := true }

/-- `evaluateInvariants`: only invariants of the given scope are
evaluated. -/
def evaluateInvariants (invariants : List Invariant) (text : Str) (scope : CScope) :
    List InvariantResult :=
  (invariants.filter (fun inv => inv.scope == scope)).map
    (fun inv => evaluateInvariant inv text)

/-- `validate`: full validation of generated content. -/
def validate (config : GeneratorConfig) (constraints : List Constraint)
    (invariants : List Invariant) (ctx : GenerationContext) (text : Str)
    (tokens : List Str) (scope : CScope) : ValidationResult :=
  let constraintResults := evaluateConstraints config constraints ctx tokens scope
  let invariantResults := evaluateInvariants invariants text scope
  let hardConstraintsFailed :=
    ((constraintResults.filter (fun r => !r.passed)).filter
      (fun r =>
        match constraints.find? (fun c => c.id == r.id) with
        | some c => c.level == CLevel.hard
        | none => false)).map (fun r => r.id)
  let softConstraintsFailed :=
    ((constraintResults.filter (fun r => !r.passed)).filter
      (fun r =>
        match constraints.find? (fun c => c.id == r.id) with
        | some c => c.level == CLevel.soft
        | none => false)).map (fun r => r.id)
  let invariantsFailed := (invariantResults.filter (fun r => !r.passed)).map (fun r => r.id)
  { valid := hardConstraintsFailed.isEmpty && invariantsFailed.isEmpty
    constraintResults := constraintResults
    invariantResults := invariantResults
    hardConstraintsFailed := hardConstraintsFailed
    softConstraintsFailed := softConstraintsFailed
    invariantsFailed := invariantsFailed }

/-- `getDefaultInvariants`. -/
def getDefaultInvariants : List Invariant :=
  [ { id := str ("inv.capitalized"), type := InvType.capitalization, scope := CScope.sentence }
  , { id := str ("inv.endsWithPunct"), type := InvType.punctuation, scope := CScope.sentence }
  , { id := str ("inv.noDoubleSpaces"), type := InvType.whitespace, scope := CScope.text } ]

/-- `getDefaultConstraints`. -/
def getDefaultConstraints (config : GeneratorConfig) : List Constraint :=
  [ { id := str ("c.maxPP"), level := CLevel.hard, scope := CScope.phrase
      type := CType.maxCount, target := str ("PP")
      value := some (config.maxPPChain : ℚ) }
  , { id := str ("c.minWords"), level := CLevel.soft, scope := CScope.sentence
      type := CType.minCount, target := str ("words")
      value := some (config.minWordsPerSentence : ℚ) }
  , { id := str ("c.maxWords"), level := CLevel.soft, scope := CScope.sentence
      type := CType.maxCount, target := str ("words")
      value := some (config.maxWordsPerSentence : ℚ) } ]

/- ----------------------------------------------------------------
   TextGenerator (src/core/text-generator.ts)
   ---------------------------------------------------------------- -/

/-- Sentence template tag (`SentenceType`). -/
inductive SentenceType where
  | simpleDeclarative | compound | introAdverbial | subordinate | interjection | question
deriving DecidableEq, Repr

/-- Result of building one sentence (`SentenceResult`). -/
structure SentenceResult where
  text : Str
  type : SentenceType
  tokens : List Str
deriving DecidableEq, Repr

/-- `LexiconStore.isLoaded`. -/
def isLoaded (lexicon : Option Lexicon) : Bool := lexicon.isSome

/-- `LexiconStore.getMeta`. -/
def getMeta (lexicon : Option Lexicon) : Option (Str × Option Str × Str) :=
  lexicon.map (fun l => (l.id, l.version, l.language))

/-- `getActiveConstraints`: every branch of the source returns the
default constraints; lexicon-supplied constraints are never merged in. -/
def getActiveConstraints (config : GeneratorConfig) (lexicon : Option Lexicon) :
    List Constraint :=
  let defaults := getDefaultConstraints config
  if !(isLoaded lexicon) then defaults
  else
    match getMeta lexicon with
    | none => defaults
    | some _ => defaults

/-- `getActiveInvariants`: likewise always the defaults. -/
def getActiveInvariants (lexicon : Option Lexicon) : List Invariant :=
  let defaults := getDefaultInvariants
  if !(isLoaded lexicon) then defaults
  else defaults

/-- `Set.prototype.add` on the insertion-ordered tag list. -/
def setAdd (l : List Str) (x : Str) : List Str :=
  if l.contains x then l else l ++ [x]

/-- `createGenerationContext(hints?)`. -/
def createGenerationContext (config : GeneratorConfig) (lexicon : Option Lexicon)
    (currentSeed : ℕ) (currentArchetype : Str) (hints : Option (List Str)) :
    GenerationContext :=
  let ctx := createContext currentSeed currentArchetype
  let tags1 := (hints.getD []).foldl setAdd ctx.activeTags
  let tags2 :=
    match getArchetype lexicon currentArchetype with
    | some a => (a.tags.getD []).foldl setAdd tags1
    | none => tags1
  { ctx with
    activeTags := tags2
    constraints := getActiveConstraints config lexicon
    invariants := getActiveInvariants lexicon }

/-- A build step of the retry loop: `sentenceTemplates.buildSentence`
abstracted as a function of the attempt number, the current (shared,
possibly already degraded) config and the current forced sentence
type.  It returns the built sentence together with the context as the
build left it, or the thrown error. -/
abbrev BuildFn := ℕ → GeneratorConfig → Option SentenceType →
  Except Str (SentenceResult × GenerationContext)

/-- The retry-and-degrade loop body of `generateSentenceWithRetry`.
`fuel` is the number of loop iterations left (the loop guard is
`attempts < maxSentenceAttempts` and only `maxPPChain` is ever
mutated, so the iteration count is fixed up front); `attemptNo` is the
value `attempts` has inside the current iteration.  Returns the
outcome, the config as left behind by the degradation steps (the
session-wide object in the source), and the number of build attempts
made. -/
def retryGo (build : BuildFn) (fallbackResult : SentenceResult) :
    ℕ → ℕ → GeneratorConfig → Option SentenceType → Option SentenceResult → Option Str →
    Except Str SentenceResult × GeneratorConfig × ℕ
  | 0, attemptNo, cfg, _ty, lastResult, lastError =>
    ( match lastResult with
      | some r => .ok r
      | none =>
        if cfg.strictMode then
          .error (lastError.getD (str ("Failed to generate valid sentence")))
        else .ok fallbackResult
    , cfg, attemptNo - 1)
  | fuel + 1, attemptNo, cfg, ty, lastResult, lastError =>
    match build attemptNo cfg ty with
    | .error e => retryGo build fallbackResult fuel (attemptNo + 1) cfg ty lastResult (some e)
    | .ok (result, ctx2) =>
      let validation :=
        validate cfg ctx2.constraints ctx2.invariants ctx2 result.text result.tokens
          CScope.sentence
      if validation.valid then (.ok result, cfg, attemptNo)
      else if validation.hardConstraintsFailed.isEmpty && validation.invariantsFailed.isEmpty
        then (.ok result, cfg, attemptNo)
      else
        let cfg2 := if 5 < attemptNo then { cfg with maxPPChain := cfg.maxPPChain - 1 } else cfg
        let ty2 := if 10 < attemptNo then some SentenceType.simpleDeclarative else ty
        retryGo build fallbackResult fuel (attemptNo + 1) cfg2 ty2 (some result) lastError

/-- `generateSentenceWithRetry(ctx, type?)`. -/
def generateSentenceWithRetry (build : BuildFn) (fallbackResult : SentenceResult)
    (cfg : GeneratorConfig) (ty : Option SentenceType) :
    Except Str SentenceResult × GeneratorConfig × ℕ :=
  retryGo build fallbackResult cfg.maxSentenceAttempts 1 cfg ty none none

/-- The session state of a `TextGenerator` instance: its (shared,
mutable) config, the current seed, the RNG state, the active archetype
and the loaded lexicon. -/
structure GeneratorState where
  config : GeneratorConfig
  currentSeed : ℕ
  rngState : ℕ
  currentArchetype : Str
  lexicon : Option Lexicon
  enableTrace : Bool
deriving DecidableEq, Repr

/-- The `TextGenerator` constructor: `now` is the value of
`Date.now()` used as the provisional seed. -/
def mkTextGenerator (cfgOpt : Option GeneratorConfig) (lexicon : Option Lexicon)
    (enableTraceOpt : Option Bool) (now : ℕ) : GeneratorState :=
  let config := mergeConfig cfgOpt
  { config := config
    currentSeed := now
    rngState := now
    currentArchetype :=
      match lexicon with
      | some lex =>
        match lex.archetypes with
        | [] => str ("default")
        | e :: _ => e.1
      | none => str ("default")
    lexicon := lexicon
    enableTrace := enableTraceOpt.getD config.enableTrace }

/-- `setSeed(seed)`: reset the stored seed and re-seed the RNG. -/
def setSeed (g : GeneratorState) (seed : ℕ) : GeneratorState :=
  { g with currentSeed := seed, rngState := seed }

/-- Run a sequence of generation calls against a session, collecting
their rendered outputs.  A call is any deterministic state transformer
on the session (the embeddings of `sentence`, `paragraph` and
`textBlock` with fixed options all have this shape: the engine is
single-threaded, synchronous and free of I/O, so each call's output
and post-state are functions of the pre-state alone). -/
def runCalls : List (GeneratorState → Str × GeneratorState) → GeneratorState →
    List Str × GeneratorState
  | [], g => ([], g)
  | f :: fs, g =>
    let (out, g1) := f g
    let (outs, g2) := runCalls fs g1
    (out :: outs, g2)

/-- The `sentence()` call at session level: it runs the retry loop
against the session's config object and the session keeps whatever
that loop left in the config (the source mutates `this.config` in
place). -/
def sentenceCall (build : BuildFn) (fallbackResult : SentenceResult)
    (ty : Option SentenceType) (g : GeneratorState) :
    Except Str SentenceResult × GeneratorState :=
  let r := generateSentenceWithRetry build fallbackResult g.config ty
  (r.1, { g with config := r.2.1 })

/- ----------------------------------------------------------------
   Default word tables (src/defaults/word-lists.ts, excerpt)
   ---------------------------------------------------------------- -/

/-- `DEFAULT_PREPOSITIONS`: the curated preposition table every
fallback preposition is drawn from. -/
def DEFAULT_PREPOSITIONS : List Str :=
  (["of", "in", "to", "for", "with", "on", "at", "from", "by", "about",
    "as", "into", "through", "during", "before", "after", "above", "below",
    "between", "under", "since", "without", "toward", "upon", "within",
    "against", "among", "across", "behind", "beyond", "over", "around",
    "throughout", "despite", "near", "along", "beside", "outside", "inside"]).map str

/-- The number of prepositional phrases in a token sequence, read off
as the number of preposition tokens: in this grammar every
prepositional phrase starts with exactly one preposition (drawn from
the preposition table), and prepositions occur nowhere else.  This is
the comparison definition for the PP max-count property;
`evaluateMaxCount` above is the code's computation. -/
def ppCountByPreposition (tokens : List Str) : ℕ :=
  tokens.countP (fun t => DEFAULT_PREPOSITIONS.contains (jsToLower t))

/- ----------------------------------------------------------------
   Concrete fixtures used by the counterexamples and witnesses
   ---------------------------------------------------------------- -/

/-- A choice event recording that a term was drawn from term set `A`. -/
def eventFromSetA : ChoiceEvent :=
  { type := CEType.term
    item := ChoiceItem.term { value := str ("alpha"), pos := POS.noun, termSetId := some (str ("A")) }
    termSetId := some (str ("A"))
    scope := CorrScope.token }

/-- A lexicon with one sentence-scoped correlation: drawing from term
set `A` boosts term set `B` by 5. -/
def lexSentenceBoost : Lexicon :=
  { id := str ("lex.boost"), language := str ("en")
    correlations :=
      [ { trigger := { chosenTermSet := some (str ("A")) }
          thenBoost := [ { termSet := some (str ("B")), weightDelta := 5 } ]
          scope := CorrScope.sentence } ] }

/-- A lexicon whose archetype `arty` carries a `termSetBias`
distribution giving term set `B` weight 2. -/
def lexDistWeight : Lexicon :=
  { id := str ("lex.dist"), language := str ("en")
    distributions := [ (str ("tsb"), [ { key := str ("B"), weight := 2 } ]) ]
    archetypes := [ (str ("arty"), { distributions := [ (str ("termSetBias"), str ("tsb")) ] }) ] }

/-- A lexicon with one sentence-scoped correlation whose boost targets
pattern `P` with delta 5. -/
def lexPatternBoost : Lexicon :=
  { id := str ("lex.pat"), language := str ("en")
    correlations :=
      [ { trigger := { chosenTermSet := some (str ("A")) }
          thenBoost := [ { pattern := some (str ("P")), weightDelta := 5 } ]
          scope := CorrScope.sentence } ] }

/-- A hard sentence-scope constraint forbidding the token `the` -
unsatisfiable for a build that always emits `the`. -/
def forbidTheConstraint : Constraint :=
  { id := str ("c.noThe"), level := CLevel.hard, scope := CScope.sentence
    type := CType.forbidden, target := str ("the") }

/-- A generation context carrying only the forbidding constraint. -/
def ctxForbidThe : GenerationContext :=
  { createContext 1 with constraints := [forbidTheConstraint], invariants := [] }

/-- The candidate every attempt of the unsatisfiable scenario builds:
its token list contains `the`, so the hard constraint always fails. -/
def candTheThe : SentenceResult :=
  { text := str ("The the."), type := SentenceType.simpleDeclarative
    tokens := [str ("the"), str ("the")] }

/-- The `buildSimpleDeclarative` fallback result of the scenarios. -/
def fallbackSimple : SentenceResult :=
  { text := str ("A fallback."), type := SentenceType.simpleDeclarative
    tokens := [str ("a"), str ("fallback")] }

/-- A build step that always succeeds with the forbidden candidate. -/
def buildAlwaysForbidden : BuildFn := fun _ _ _ => .ok (candTheThe, ctxForbidThe)

/-- A build step that always throws. -/
def buildAlwaysThrow : BuildFn := fun _ _ _ => .error (str ("boom"))

/-- Strict-mode config with a small attempt budget. -/
def cfgStrict3 : GeneratorConfig :=
  { DEFAULT_CONFIG with strictMode := true, maxSentenceAttempts := 3 }

/-- A candidate that passes the forbidding constraint. -/
def candACat : SentenceResult :=
  { text := str ("A cat."), type := SentenceType.simpleDeclarative
    tokens := [str ("a"), str ("cat")] }

/-- A build step that fails the hard constraint on the first six
attempts and produces a valid candidate from attempt seven on. -/
def buildDegrade : BuildFn := fun attemptNo _ _ =>
  if attemptNo ≤ 6 then .ok (candTheThe, ctxForbidThe) else .ok (candACat, ctxForbidThe)

/-- Default config with `maxPPChain = p` and a seven-attempt budget. -/
def cfgDegrade (p : ℕ) : GeneratorConfig :=
  { DEFAULT_CONFIG with maxPPChain := p, maxSentenceAttempts := 7 }

/-- A session whose config is `cfgDegrade p`. -/
def sessionDegrade (p : ℕ) : GeneratorState :=
  { config := cfgDegrade p, currentSeed := 0, rngState := 0
    currentArchetype := str ("default"), lexicon := none, enableTrace := false }

/-- A hard PP max-count constraint with the given bound. -/
def maxPPConstraint (bound : ℚ) : Constraint :=
  { id := str ("c.maxPP"), level := CLevel.hard, scope := CScope.phrase
    type := CType.maxCount, target := str ("PP"), value := some bound }

/-- A pattern with id `P` (default weight) used to probe pattern
weighting. -/
def patternP : Pattern := { type := PatternType.sentence }

/- ----------------------------------------------------------------
   Association-list (JavaScript Map) lemmas
   ---------------------------------------------------------------- -/

theorem mapGet_cons {v : Type} (e : Str × v) (m : JsMap v) (k : Str) :
    mapGet (e :: m) k = if e.1 == k then some e.2 else mapGet m k := by
  by_cases h : e.1 == k <;> simp [mapGet, List.find?_cons, h]

theorem mapGet_mapSet_self {v : Type} (m : JsMap v) (k : Str) (x : v) :
    mapGet (mapSet m k x) k = some x := by
  induction m with
  | nil => simp [mapSet, mapGet, List.find?_cons]
  | cons e rest ih =>
    by_cases h : e.1 == k
    · simp [mapSet, h, mapGet_cons]
    · simp [mapSet, h, mapGet_cons, ih]

theorem mapGet_mapSet_ne {v : Type} (m : JsMap v) (k k' : Str) (x : v) (h : k ≠ k') :
    mapGet (mapSet m k x) k' = mapGet m k' := by
  induction m with
  | nil => simp [mapSet, mapGet_cons, mapGet, h]
  | cons e rest ih =>
    by_cases he : e.1 == k
    · have he' : e.1 = k := by simpa using he
      simp [mapSet, he, mapGet_cons, h, he']
    · simp [mapSet, he, mapGet_cons, ih]

theorem mapGet_filter_pred_false {v : Type} (m : JsMap v) (p : Str → Bool) (k : Str)
    (h : p k = false) : mapGet (m.filter (fun e => !p e.1)) k = mapGet m k := by
  induction m with
  | nil => rfl
  | cons e rest ih =>
    by_cases hp : p e.1
    · have hne : (e.1 == k) = false := by
        rcases eq_or_ne e.1 k with rfl | hne
        · rw [hp] at h; cases h
        · simpa using hne
      simp [List.filter_cons, hp, mapGet_cons, hne, ih]
    · simp [List.filter_cons, hp, mapGet_cons, ih]

/-- A scope-prefixed bias key is never equal to the bare key it
suffixes. -/
theorem scoped_key_ne_bare (pre t : Str) : pre ++ str (":") ++ t ≠ t := by
  intro h
  have hlen := congrArg List.length h
  simp [str] at hlen
  omega

/- ----------------------------------------------------------------
   C10, C1, C4, C9
   ---------------------------------------------------------------- -/

/-- C10: whatever lexicon is loaded (or none) and whatever constraints
and invariants it declares, the context built for a generation call
carries exactly the three default constraints (hard `c.maxPP` at
phrase scope, soft `c.minWords` and soft `c.maxWords` at sentence
scope, with bounds from the config) and exactly the three default
invariants; lexicon-supplied rules never enter the active set. -/
theorem C10_active_rules_are_defaults (config : GeneratorConfig) (lexicon : Option Lexicon)
    (seed : ℕ) (archetype : Str) (hints : Option (List Str)) :
    (createGenerationContext config lexicon seed archetype hints).constraints =
      [ { id := str ("c.maxPP"), level := CLevel.hard, scope := CScope.phrase
          type := CType.maxCount, target := str ("PP")
          value := some ((config.maxPPChain : ℚ)) }
      , { id := str ("c.minWords"), level := CLevel.soft, scope := CScope.sentence
          type := CType.minCount, target := str ("words")
          value := some ((config.minWordsPerSentence : ℚ)) }
      , { id := str ("c.maxWords"), level := CLevel.soft, scope := CScope.sentence
          type := CType.maxCount, target := str ("words")
          value := some ((config.maxWordsPerSentence : ℚ)) } ] ∧
    (createGenerationContext config lexicon seed archetype hints).invariants =
      [ { id := str ("inv.capitalized"), type := InvType.capitalization, scope := CScope.sentence }
      , { id := str ("inv.endsWithPunct"), type := InvType.punctuation, scope := CScope.sentence }
      , { id := str ("inv.noDoubleSpaces"), type := InvType.whitespace, scope := CScope.text } ] := by
  cases lexicon <;> exact ⟨rfl, rfl⟩

/-- C1: two independently constructed sessions (different
construction-time clock values) that are given the same config and
lexicon, call `setSeed` with the same seed, and then run the same
sequence of generation calls, produce identical output streams and
identical final states.  Generation calls are arbitrary deterministic
state transformers: the engine is single-threaded and synchronous, so
the embeddings of `sentence`, `paragraph` and `textBlock` under fixed
options all have this shape, and `setSeed` erases the only
construction-time state (`currentSeed` and the RNG state). -/
theorem C1_seeded_sessions_identical (cfgOpt : Option GeneratorConfig)
    (lexicon : Option Lexicon) (traceOpt : Option Bool) (t1 t2 seed : ℕ)
    (calls : List (GeneratorState → Str × GeneratorState)) :
    runCalls calls (setSeed (mkTextGenerator cfgOpt lexicon traceOpt t1) seed) =
    runCalls calls (setSeed (mkTextGenerator cfgOpt lexicon traceOpt t2) seed) := by
  have h : setSeed (mkTextGenerator cfgOpt lexicon traceOpt t1) seed =
      setSeed (mkTextGenerator cfgOpt lexicon traceOpt t2) seed := rfl
  rw [h]

/-- C4 (counterexample): with an archetype whose `termSetBias`
distribution gives set `B` weight 2 and no context bias, the code
computes weight 2 (the distribution weight multiplies the base 1),
while the claimed formula `1 + distributionWeight + bias` gives 3. -/
theorem C4_weight_formula_counterexample :
    termSetWeight (some lexDistWeight) (createContext 1 (str ("arty"))) (str ("B")) = 2 ∧
    specTermSetWeight (some lexDistWeight) (createContext 1 (str ("arty"))) (str ("B")) = 3 ∧
    termSetWeight (some lexDistWeight) (createContext 1 (str ("arty"))) (str ("B")) ≠
      specTermSetWeight (some lexDistWeight) (createContext 1 (str ("arty"))) (str ("B")) := by
  refine ⟨?_, ?_, ?_⟩ <;> with_unfolding_all decide

/-- C4 (amended): the candidate term-set weight is the archetype's
distribution entry weight if one exists (it multiplies the base 1,
rather than being added to it) and 1 otherwise, plus the context bias
under the bare set id, clamped below at 0; when no distribution entry
applies this agrees with the claimed `1 + 0 + bias` formula. -/
theorem C4_weight_formula_amended (lexicon : Option Lexicon) (ctx : GenerationContext)
    (id : Str) :
    termSetWeight lexicon ctx id =
      max 0 ((match termSetBiasEntry lexicon ctx.archetype id with
              | some entry => entry.weight
              | none => 1) + ((mapGet ctx.biases id).getD 0)) ∧
    (termSetBiasEntry lexicon ctx.archetype id = none →
      termSetWeight lexicon ctx id = specTermSetWeight lexicon ctx id) := by
  constructor
  · unfold termSetWeight
    cases termSetBiasEntry lexicon ctx.archetype id <;> simp
  · intro h
    unfold termSetWeight specTermSetWeight
    rw [h]
    norm_num

theorem C4_weight_formula_amended_witness :
    termSetWeight (some lexSentenceBoost) (createContext 1) (str ("B")) =
      specTermSetWeight (some lexSentenceBoost) (createContext 1) (str ("B")) :=
  (C4_weight_formula_amended (some lexSentenceBoost) (createContext 1) (str ("B"))).2
    (by decide)

/-- C9: the PP max-count evaluator counts determiner tokens, not
prepositional phrases.  `["sits","on","grass"]` contains one
prepositional phrase (`on grass`; one preposition token) yet passes a
bound of 0, while `["the","the"]` contains no prepositional phrase at
all (no preposition token) yet fails a bound of 1 because `the` is a
determiner. -/
theorem C9_maxCount_PP_counts_determiners :
    (evaluateMaxCount DEFAULT_CONFIG (maxPPConstraint 0)
        ((["sits", "on", "grass"]).map str)).passed = true ∧
    ppCountByPreposition ((["sits", "on", "grass"]).map str) = 1 ∧
    (evaluateMaxCount DEFAULT_CONFIG (maxPPConstraint 1)
        ((["the", "the"]).map str)).passed = false ∧
    ppCountByPreposition ((["the", "the"]).map str) = 0 := by
  refine ⟨by decide, by decide, by decide, by decide⟩

/- ----------------------------------------------------------------
   C2 and C5: correlation boosts, bias keys and scope clears
   ---------------------------------------------------------------- -/

/-- C2 (counterexample): a correlation boost applied at `sentence`
scope still affects term-set sampling weights after the
sentence-boundary clear.  With a sentence-scoped boost of 5 on set
`B`, the sampling weight of `B` after `clearSentenceState` is 6, not
the unboosted 1: the clear removes only the `sentence:B` entry while
`sampleTerm` reads the bare `B` entry, which survives. -/
theorem C2_sentence_boost_persists_counterexample :
    termSetWeight (some lexSentenceBoost)
      (clearSentenceState
        (applyCorrelations (some lexSentenceBoost) (createContext 1) eventFromSetA))
      (str ("B")) = 6 ∧
    termSetWeight (some lexSentenceBoost) (createContext 1) (str ("B")) = 1 := by
  constructor <;> with_unfolding_all decide

/-- C2 (amended): the sentence-boundary clear has no effect at all on
term-set sampling weights (for any set id that does not itself start
with the literal prefix `sentence:`): `clearSentenceState` deletes
only `sentence:`-prefixed bias entries, while the weight used by
`sampleTerm` reads the bare set id.  Consequently a sentence-scoped
boost keeps affecting sampling in later sentences exactly like a
paragraph-scoped one. -/
theorem C2_sentence_clear_no_effect_on_weights (lexicon : Option Lexicon)
    (ctx : GenerationContext) (id : Str)
    (h : ((str ("sentence:")).isPrefixOf id) = false) :
    termSetWeight lexicon (clearSentenceState ctx) id = termSetWeight lexicon ctx id := by
  unfold termSetWeight
  have harch : (clearSentenceState ctx).archetype = ctx.archetype := rfl
  have hb : mapGet (clearSentenceState ctx).biases id = mapGet ctx.biases id := by
    have hf := mapGet_filter_pred_false ctx.biases
      (fun k => (str ("sentence:")).isPrefixOf k) id h
    simpa [clearSentenceState] using hf
  rw [harch, hb]

theorem C2_sentence_clear_no_effect_witness :
    termSetWeight (some lexSentenceBoost)
      (clearSentenceState
        (applyCorrelations (some lexSentenceBoost) (createContext 1) eventFromSetA))
      (str ("B")) =
    termSetWeight (some lexSentenceBoost)
      (applyCorrelations (some lexSentenceBoost) (createContext 1) eventFromSetA)
      (str ("B")) :=
  C2_sentence_clear_no_effect_on_weights (some lexSentenceBoost)
    (applyCorrelations (some lexSentenceBoost) (createContext 1) eventFromSetA)
    (str ("B")) (by decide)

/-- C5 (counterexample): a fired correlation whose boost targets
pattern `P` writes only the scope-prefixed key
`sentence:pattern:P`; the bare key `pattern:P` (the one
`samplePattern` reads) receives nothing, and the pattern's sampling
weight is unchanged. -/
theorem C5_pattern_boost_single_key_counterexample :
    mapGet (applyCorrelations (some lexPatternBoost) (createContext 1) eventFromSetA).biases
      (str ("pattern:P")) = none ∧
    mapGet (applyCorrelations (some lexPatternBoost) (createContext 1) eventFromSetA).biases
      (str ("sentence:pattern:P")) = some 5 ∧
    patternWeight (applyCorrelations (some lexPatternBoost) (createContext 1) eventFromSetA)
      (str ("P")) patternP = patternWeight (createContext 1) (str ("P")) patternP := by
  refine ⟨?_, ?_, ?_⟩ <;> with_unfolding_all decide

/-- C5 (amended): for a fired correlation, a term-set boost adds its
delta under both the scope-prefixed key and the bare target key, but a
pattern boost adds its delta only under the scope-prefixed
`<scope>:pattern:<id>` key: the bare `pattern:<id>` entry - the one
`samplePattern`'s weighting reads - is left untouched, so the
pattern's sampling weight does not change. -/
theorem C5_boost_key_writes (lexBase : Lexicon) (cond : CorrelationCondition)
    (scope : CorrScope) (t p : Str) (δ : ℚ) (ctx : GenerationContext) (ev : ChoiceEvent)
    (hmatch : matchesCorrelationCondition cond ev = true)
    (ht : t.isEmpty = false) (hp : p.isEmpty = false) :
    (mapGet (applyCorrelations
        (some { lexBase with correlations :=
          [{ trigger := cond
             thenBoost := [{ termSet := some t, pattern := none, weightDelta := δ }]
             scope := scope }] }) ctx ev).biases
      (scope.toStr ++ str (":") ++ t) =
      some (((mapGet ctx.biases (scope.toStr ++ str (":") ++ t)).getD 0) + δ)) ∧
    (mapGet (applyCorrelations
        (some { lexBase with correlations :=
          [{ trigger := cond
             thenBoost := [{ termSet := some t, pattern := none, weightDelta := δ }]
             scope := scope }] }) ctx ev).biases t =
      some (((mapGet ctx.biases t).getD 0) + δ)) ∧
    (mapGet (applyCorrelations
        (some { lexBase with correlations :=
          [{ trigger := cond
             thenBoost := [{ termSet := none, pattern := some p, weightDelta := δ }]
             scope := scope }] }) ctx ev).biases
      (scope.toStr ++ str (":") ++ str ("pattern:") ++ p) =
      some (((mapGet ctx.biases (scope.toStr ++ str (":") ++ str ("pattern:") ++ p)).getD 0) + δ)) ∧
    (mapGet (applyCorrelations
        (some { lexBase with correlations :=
          [{ trigger := cond
             thenBoost := [{ termSet := none, pattern := some p, weightDelta := δ }]
             scope := scope }] }) ctx ev).biases (str ("pattern:") ++ p) =
      mapGet ctx.biases (str ("pattern:") ++ p)) ∧
    (∀ q : Pattern, patternWeight (applyCorrelations
        (some { lexBase with correlations :=
          [{ trigger := cond
             thenBoost := [{ termSet := none, pattern := some p, weightDelta := δ }]
             scope := scope }] }) ctx ev) p q = patternWeight ctx p q) := by
  have hkey_ne : scope.toStr ++ str (":") ++ t ≠ t := scoped_key_ne_bare _ _
  have happT : (applyCorrelations
      (some { lexBase with correlations :=
        [{ trigger := cond
           thenBoost := [{ termSet := some t, pattern := none, weightDelta := δ }]
           scope := scope }] }) ctx ev).biases =
      mapSet (mapSet ctx.biases (scope.toStr ++ str (":") ++ t)
          (((mapGet ctx.biases (scope.toStr ++ str (":") ++ t)).getD 0) + δ)) t
        (((mapGet (mapSet ctx.biases (scope.toStr ++ str (":") ++ t)
            (((mapGet ctx.biases (scope.toStr ++ str (":") ++ t)).getD 0) + δ)) t).getD 0) + δ) := by
    simp [applyCorrelations, hmatch, applyBoost, truthy?, ht]
  have hpat_ne : scope.toStr ++ str (":") ++ str ("pattern:") ++ p ≠ str ("pattern:") ++ p := by
    intro h
    have hlen := congrArg List.length h
    simp [str] at hlen
    omega
  have happP : (applyCorrelations
      (some { lexBase with correlations :=
        [{ trigger := cond
           thenBoost := [{ termSet := none, pattern := some p, weightDelta := δ }]
           scope := scope }] }) ctx ev).biases =
      mapSet ctx.biases (scope.toStr ++ str (":") ++ str ("pattern:") ++ p)
        (((mapGet ctx.biases (scope.toStr ++ str (":") ++ str ("pattern:") ++ p)).getD 0) + δ) := by
    simp [applyCorrelations, hmatch, applyBoost, truthy?, hp]
  refine ⟨?_, ?_, ?_, ?_, ?_⟩
  · rw [happT, mapGet_mapSet_ne _ _ _ _ (Ne.symm hkey_ne), mapGet_mapSet_self]
  · rw [happT, mapGet_mapSet_self, mapGet_mapSet_ne _ _ _ _ hkey_ne]
  · rw [happP, mapGet_mapSet_self]
  · rw [happP, mapGet_mapSet_ne _ _ _ _ hpat_ne]
  · intro q
    unfold patternWeight
    rw [happP, mapGet_mapSet_ne _ _ _ _ hpat_ne]

theorem C5_boost_key_writes_witness :
    mapGet (applyCorrelations
        (some { lexSentenceBoost with correlations :=
          [{ trigger := { chosenTermSet := some (str ("A")) }
             thenBoost := [{ termSet := some (str ("B")), pattern := none, weightDelta := 5 }]
             scope := CorrScope.sentence }] }) (createContext 1) eventFromSetA).biases
      (str ("B")) = some (((mapGet (createContext 1).biases (str ("B"))).getD 0) + 5) :=
  (C5_boost_key_writes lexSentenceBoost { chosenTermSet := some (str ("A")) }
    CorrScope.sentence (str ("B")) (str ("P")) 5 (createContext 1) eventFromSetA
    (by decide) (by decide) (by decide)).2.1

/- ----------------------------------------------------------------
   C7: weightedPick
   ---------------------------------------------------------------- -/

theorem weightedPickWalk_mem {α : Type} :
    ∀ (l : List (WeightedItem α)) (q : ℚ) (x : α),
      weightedPickWalk l q = some x → ∃ wi ∈ l, wi.item = x := by
  intro l
  induction l with
  | nil => intro q x h; simp [weightedPickWalk] at h
  | cons i rest ih =>
    intro q x h
    by_cases hc : q - i.weight ≤ 0
    · simp [weightedPickWalk, hc] at h
      exact ⟨i, by simp, h⟩
    · simp [weightedPickWalk, hc] at h
      obtain ⟨wi, hmem, hx⟩ := ih _ _ h
      exact ⟨wi, by simp [hmem], hx⟩

theorem mem_validWeightedItems {α : Type} (items : List (WeightedItem α))
    (wi : WeightedItem α) (h : wi ∈ validWeightedItems items) :
    wi ∈ items ∧ 0 < wi.weight := by
  simpa [validWeightedItems, List.mem_filter] using h

theorem validWeightedItems_nil {α : Type} (items : List (WeightedItem α))
    (h : ∀ wi ∈ items, wi.weight ≤ 0) : validWeightedItems items = [] := by
  simp only [validWeightedItems, List.filter_eq_nil_iff]
  intro wi hm
  simpa using not_lt.2 (h wi hm)

/-- C7: `weightedPick` (a) only ever returns the item of a
positively-weighted entry of its input - a weight-0 or negative entry
is never selected; (b) fails with an error whenever no entry has
positive weight, including on the empty list; and (c) when the
subtraction walk over the positively-weighted entries finishes without
the running total going non-positive, it returns the last
positively-weighted entry as the numerical-safety fallback. -/
theorem C7_weightedPick_properties {α : Type} (items : List (WeightedItem α)) (r : ℚ) :
    (∀ x, weightedPick items r = .ok x → ∃ wi ∈ items, wi.item = x ∧ 0 < wi.weight) ∧
    ((∀ wi ∈ items, wi.weight ≤ 0) → ∃ msg, weightedPick items r = .error msg) ∧
    (∀ v vs, validWeightedItems items = v :: vs →
      weightedPickWalk (v :: vs) (r * ((v :: vs).foldl (fun acc i => acc + i.weight) 0)) = none →
      weightedPick items r = .ok (((v :: vs).getLast (List.cons_ne_nil v vs)).item)) := by
  refine ⟨?_, ?_, ?_⟩
  · intro x hx
    by_cases he : items.isEmpty
    · simp [weightedPick, he] at hx
    · rcases hval : validWeightedItems items with _ | ⟨v, vs⟩
      · simp [weightedPick, he, hval] at hx
      · simp only [weightedPick, he, Bool.false_eq_true, if_false, hval] at hx
        rcases hwalk : weightedPickWalk (v :: vs)
            (r * ((v :: vs).foldl (fun acc i => acc + i.weight) 0)) with _ | y
        · rw [hwalk] at hx
          have hx' : ((v :: vs).getLast (List.cons_ne_nil v vs)).item = x := by
            simpa using hx
          have hpack : ∃ g ∈ v :: vs, g.item = x :=
            ⟨_, List.getLast_mem _, hx'⟩
          obtain ⟨g, hgmem, hgitem⟩ := hpack
          rw [← hval] at hgmem
          obtain ⟨h1, h2⟩ := mem_validWeightedItems items g hgmem
          exact ⟨g, h1, hgitem, h2⟩
        · rw [hwalk] at hx
          have hy : y = x := by simpa using hx
          obtain ⟨wi, hmem, hitem⟩ := weightedPickWalk_mem (v :: vs) _ y hwalk
          rw [← hval] at hmem
          obtain ⟨h1, h2⟩ := mem_validWeightedItems items wi hmem
          exact ⟨wi, h1, hy ▸ hitem, h2⟩
  · intro h
    have h0 := validWeightedItems_nil items h
    by_cases he : items.isEmpty
    · exact ⟨str ("Cannot pick from empty weighted list"), by simp [weightedPick, he]⟩
    · exact ⟨str ("All weights are zero or negative"), by simp [weightedPick, he, h0]⟩
  · intro v vs hval hwalk
    have hne : items.isEmpty = false := by
      cases items with
      | nil => simp [validWeightedItems] at hval
      | cons a l => rfl
    simp only [weightedPick, hne, Bool.false_eq_true, if_false, hval]
    rw [hwalk]

theorem C7_weightedPick_properties_witness :
    (∃ msg, weightedPick [WeightedItem.mk (1 : ℕ) 0] (1/2) = .error msg) ∧
    weightedPick [WeightedItem.mk (10 : ℕ) 1, WeightedItem.mk 20 2] 2 = .ok 20 := by
  constructor
  · refine (C7_weightedPick_properties [WeightedItem.mk (1 : ℕ) 0] (1/2)).2.1 ?_
    intro wi hm
    simp at hm
    rw [hm]
  · have h := (C7_weightedPick_properties
        [WeightedItem.mk (10 : ℕ) 1, WeightedItem.mk 20 2] 2).2.2
      (WeightedItem.mk 10 1) [WeightedItem.mk 20 2]
      (by decide) (by with_unfolding_all decide)
    simpa using h

/- ----------------------------------------------------------------
   C3 and C8: the retry-and-degrade loop
   ---------------------------------------------------------------- -/

theorem retryGo_attempts_le (build : BuildFn) (fb : SentenceResult) :
    ∀ (fuel attemptNo : ℕ) (cfg : GeneratorConfig) (ty : Option SentenceType)
      (lastR : Option SentenceResult) (lastE : Option Str),
      (retryGo build fb fuel attemptNo cfg ty lastR lastE).2.2 ≤ attemptNo - 1 + fuel := by
  intro fuel
  induction fuel with
  | zero =>
    intro attemptNo cfg ty lastR lastE
    simp [retryGo]
  | succ n ih =>
    intro attemptNo cfg ty lastR lastE
    simp only [retryGo]
    cases hb : build attemptNo cfg ty with
    | error e =>
      exact le_trans (ih (attemptNo + 1) cfg ty lastR (some e)) (by omega)
    | ok rc =>
      obtain ⟨result, ctx2⟩ := rc
      cases hv : (validate cfg ctx2.constraints ctx2.invariants ctx2 result.text
          result.tokens CScope.sentence).valid
      · cases hs : ((validate cfg ctx2.constraints ctx2.invariants ctx2 result.text
            result.tokens CScope.sentence).hardConstraintsFailed.isEmpty &&
            (validate cfg ctx2.constraints ctx2.invariants ctx2 result.text
              result.tokens CScope.sentence).invariantsFailed.isEmpty)
        · simp only [hv, hs, Bool.false_eq_true, if_false]
          exact le_trans (ih _ _ _ _ _) (by omega)
        · simp only [hv, hs, Bool.false_eq_true, if_false, if_true]
          omega
      · simp only [hv, if_true]
        omega

theorem retryGo_all_fail (build : BuildFn) (fb : SentenceResult)
    (P : SentenceResult → Prop)
    (hbuild : ∀ k c t, ∃ res ctx2, build k c t = .ok (res, ctx2) ∧ P res ∧
      (validate c ctx2.constraints ctx2.invariants ctx2 res.text res.tokens
        CScope.sentence).valid = false) :
    ∀ (fuel attemptNo : ℕ) (cfg : GeneratorConfig) (ty : Option SentenceType)
      (lastR : Option SentenceResult) (lastE : Option Str),
      (lastR = none → 0 < fuel) → (∀ r, lastR = some r → P r) →
      ∃ res, (retryGo build fb fuel attemptNo cfg ty lastR lastE).1 = .ok res ∧ P res := by
  intro fuel
  induction fuel with
  | zero =>
    intro attemptNo cfg ty lastR lastE hfuel hlast
    cases lastR with
    | none => exact absurd (hfuel rfl) (by omega)
    | some r => exact ⟨r, by simp [retryGo], hlast r rfl⟩
  | succ n ih =>
    intro attemptNo cfg ty lastR lastE _hfuel hlast
    obtain ⟨res, ctx2, hb, hP, hval⟩ := hbuild attemptNo cfg ty
    have hval2 : ((validate cfg ctx2.constraints ctx2.invariants ctx2 res.text
        res.tokens CScope.sentence).hardConstraintsFailed.isEmpty &&
        (validate cfg ctx2.constraints ctx2.invariants ctx2 res.text
          res.tokens CScope.sentence).invariantsFailed.isEmpty) = false := hval
    simp only [retryGo]
    rw [hb]
    simp only [hval, hval2, Bool.false_eq_true, if_false]
    exact ih _ _ _ _ _ (fun h => nomatch h) (fun r hr => (Option.some.inj hr) ▸ hP)

theorem retryGo_all_throw (build : BuildFn) (fb : SentenceResult)
    (hbuild : ∀ k c t, ∃ e, build k c t = .error e) :
    ∀ (fuel attemptNo : ℕ) (cfg : GeneratorConfig) (ty : Option SentenceType)
      (lastE : Option Str),
      (cfg.strictMode = true →
        ∃ e, (retryGo build fb fuel attemptNo cfg ty none lastE).1 = .error e) ∧
      (cfg.strictMode = false →
        (retryGo build fb fuel attemptNo cfg ty none lastE).1 = .ok fb) := by
  intro fuel
  induction fuel with
  | zero =>
    intro attemptNo cfg ty lastE
    constructor
    · intro hs
      exact ⟨lastE.getD (str ("Failed to generate valid sentence")), by simp [retryGo, hs]⟩
    · intro hs
      simp [retryGo, hs]
  | succ n ih =>
    intro attemptNo cfg ty lastE
    obtain ⟨e, hb⟩ := hbuild attemptNo cfg ty
    simp only [retryGo]
    rw [hb]
    exact ih (attemptNo + 1) cfg ty (some e)

/-- C3 (amended): the retry loop always terminates within
`maxSentenceAttempts` build attempts.  When every attempt builds a
candidate that fails validation (as with an unsatisfiable hard
constraint), the loop returns the last failing candidate regardless of
`strictMode` - it neither throws nor falls back.  Only when every
attempt throws does exhaustion behave as the claim described: strict
mode propagates an error, non-strict mode returns the
`simpleDeclarative` fallback. -/
theorem C3_retry_exhaustion_behaviour (build : BuildFn) (fb : SentenceResult)
    (cfg : GeneratorConfig) (ty : Option SentenceType) (P : SentenceResult → Prop) :
    ((generateSentenceWithRetry build fb cfg ty).2.2 ≤ cfg.maxSentenceAttempts) ∧
    ((∀ k c t, ∃ res ctx2, build k c t = .ok (res, ctx2) ∧ P res ∧
        (validate c ctx2.constraints ctx2.invariants ctx2 res.text res.tokens
          CScope.sentence).valid = false) →
      0 < cfg.maxSentenceAttempts →
      ∃ res, (generateSentenceWithRetry build fb cfg ty).1 = .ok res ∧ P res) ∧
    ((∀ k c t, ∃ e, build k c t = .error e) →
      (cfg.strictMode = true →
        ∃ e, (generateSentenceWithRetry build fb cfg ty).1 = .error e) ∧
      (cfg.strictMode = false →
        (generateSentenceWithRetry build fb cfg ty).1 = .ok fb)) := by
  refine ⟨?_, ?_, ?_⟩
  · simpa using retryGo_attempts_le build fb cfg.maxSentenceAttempts 1 cfg ty none none
  · intro hbuild hpos
    exact retryGo_all_fail build fb P hbuild cfg.maxSentenceAttempts 1 cfg ty none none
      (fun _ => hpos) (fun r hr => nomatch hr)
  · intro hbuild
    exact retryGo_all_throw build fb hbuild cfg.maxSentenceAttempts 1 cfg ty none

/-- C3 (counterexample): in strict mode, with a hard constraint that
every built candidate violates, exhausting the attempt budget does NOT
throw and does NOT return the simpleDeclarative fallback - the loop
returns the last (still invalid) candidate. -/
theorem C3_strict_exhaustion_counterexample :
    cfgStrict3.strictMode = true ∧
    (generateSentenceWithRetry buildAlwaysForbidden fallbackSimple cfgStrict3 none).1 =
      .ok candTheThe ∧
    candTheThe ≠ fallbackSimple := by
  refine ⟨rfl, rfl, by decide⟩

theorem C3_retry_exhaustion_witness :
    (∃ res, (generateSentenceWithRetry buildAlwaysForbidden fallbackSimple cfgStrict3 none).1 =
        .ok res ∧ res = candTheThe) ∧
    (∃ e, (generateSentenceWithRetry buildAlwaysThrow fallbackSimple cfgStrict3 none).1 =
        .error e) := by
  constructor
  · exact (C3_retry_exhaustion_behaviour buildAlwaysForbidden fallbackSimple cfgStrict3 none
      (fun r => r = candTheThe)).2.1
      (fun k c t => ⟨candTheThe, ctxForbidThe, rfl, rfl, rfl⟩) (by decide)
  · exact ((C3_retry_exhaustion_behaviour buildAlwaysThrow fallbackSimple cfgStrict3 none
      (fun _ => True)).2.2 (fun k c t => ⟨str ("boom"), rfl⟩)).1 rfl

/-- C8: when sentence generation needs more than 5 failed attempts,
the degrade step decrements `maxPPChain` on the session-wide config:
after the retried sentence finally completes (here, on attempt 7), the
session's config keeps the reduced limit, and every subsequent
generation call in the same session runs under it. -/
theorem C8_degrade_mutates_session_config (p : ℕ) :
    (sentenceCall buildDegrade fallbackSimple none (sessionDegrade p)).1 = .ok candACat ∧
    (sentenceCall buildDegrade fallbackSimple none (sessionDegrade p)).2.config =
      cfgDegrade (p - 1) ∧
    (∀ (build2 : BuildFn) (fb2 : SentenceResult) (ty2 : Option SentenceType),
      (sentenceCall build2 fb2 ty2
          ((sentenceCall buildDegrade fallbackSimple none (sessionDegrade p)).2)).1 =
        (generateSentenceWithRetry build2 fb2 (cfgDegrade (p - 1)) ty2).1) ∧
    (1 ≤ p →
      (sentenceCall buildDegrade fallbackSimple none (sessionDegrade p)).2.config.maxPPChain
        < p) := by
  refine ⟨rfl, rfl, fun _ _ _ => rfl, fun hp => ?_⟩
  have h : (sentenceCall buildDegrade fallbackSimple none
      (sessionDegrade p)).2.config.maxPPChain = p - 1 := rfl
  rw [h]
  omega

theorem C8_degrade_mutates_session_config_witness :
    (sentenceCall buildDegrade fallbackSimple none (sessionDegrade 2)).2.config.maxPPChain
      < 2 :=
  (C8_degrade_mutates_session_config 2).2.2.2 (by decide)

/- ----------------------------------------------------------------
   C6: character-class facts
   ---------------------------------------------------------------- -/

theorem jsToUpperChar_self_or_lower (c : Char) :
    jsToUpperChar c = c ∨
      c ∈ ([ 'a', 'b', 'c', 'd', 'e', 'f', 'g', 'h', 'i', 'j', 'k', 'l', 'm',
             'n', 'o', 'p', 'q', 'r', 's', 't', 'u', 'v', 'w', 'x', 'y', 'z' ] : List Char) := by
  unfold jsToUpperChar
  split <;> simp

theorem jsWs_jsToUpperChar (c : Char) : jsWs (jsToUpperChar c) = jsWs c := by
  rcases jsToUpperChar_self_or_lower c with h | h
  · rw [h]
  · fin_cases h <;> rfl

theorem jsToUpperChar_idem (c : Char) :
    jsToUpperChar (jsToUpperChar c) = jsToUpperChar c := by
  rcases jsToUpperChar_self_or_lower c with h | h
  · rw [h, h]
  · fin_cases h <;> rfl

theorem isAsciiLetter_jsToUpperChar (c : Char) (h : isAsciiLetter c = true) :
    isAsciiLetter (jsToUpperChar c) = true := by
  rcases jsToUpperChar_self_or_lower c with h' | h'
  · rw [h']; exact h
  · fin_cases h' <;> rfl

theorem jsWs_false_of_isPunctCls (c : Char) (h : isPunctCls c = true) : jsWs c = false := by
  simp only [isPunctCls, Bool.or_eq_true, decide_eq_true_eq] at h
  rcases h with ((((((rfl | rfl) | rfl) | rfl) | rfl) | rfl) | rfl) <;> rfl

theorem jsWs_false_of_isPunctSp (c : Char) (h : isPunctSp c = true) : jsWs c = false := by
  simp only [isPunctSp, Bool.or_eq_true, decide_eq_true_eq] at h
  rcases h with (((((rfl | rfl) | rfl) | rfl) | rfl) | rfl) <;> rfl

theorem jsWs_false_of_isTerminalPunct (c : Char) (h : isTerminalPunct c = true) :
    jsWs c = false := by
  simp only [isTerminalPunct, Bool.or_eq_true, decide_eq_true_eq] at h
  rcases h with ((((rfl | rfl) | rfl) | rfl) | rfl) <;> rfl

theorem isEndPunct_of_isTerminalPunct (c : Char) (h : isTerminalPunct c = true) :
    isEndPunct c = true := by
  simp only [isTerminalPunct, Bool.or_eq_true, decide_eq_true_eq] at h
  rcases h with ((((rfl | rfl) | rfl) | rfl) | rfl) <;> rfl

theorem jsWs_false_of_isAsciiLetter (c : Char) (h : isAsciiLetter c = true) :
    jsWs c = false := by
  simp only [isAsciiLetter, Bool.or_eq_true, Bool.and_eq_true, decide_eq_true_eq] at h
  by_contra hws
  have hws' : jsWs c = true := by
    cases hjs : jsWs c
    · exact absurd hjs hws
    · rfl
  simp only [jsWs, Bool.or_eq_true, decide_eq_true_eq] at hws'
  rcases hws' with (((((rfl | rfl) | rfl) | rfl) | rfl) | rfl) <;>
    rcases h with ⟨h1, h2⟩ | ⟨h1, h2⟩ <;> revert h1 h2 <;> decide

/- ----------------------------------------------------------------
   C6: adjacent-whitespace machinery
   ---------------------------------------------------------------- -/

theorem hasDoubleWs_cons (a : Char) (l : Str) :
    hasDoubleWs (a :: l) = ((jsWs a && headWs l) || hasDoubleWs l) := by
  cases l <;> simp [hasDoubleWs, headWs]

theorem hasDoubleWs_append_right (l1 l2 : Str) (h : hasDoubleWs (l1 ++ l2) = false) :
    hasDoubleWs l2 = false := by
  induction l1 with
  | nil => exact h
  | cons a l1 ih =>
    rw [List.cons_append, hasDoubleWs_cons] at h
    exact ih (by simpa using (Bool.or_eq_false_iff.mp h).2)

theorem hasDoubleWs_append_left (l1 l2 : Str) (h : hasDoubleWs (l1 ++ l2) = false) :
    hasDoubleWs l1 = false := by
  induction l1 with
  | nil => rfl
  | cons a l1 ih =>
    rw [List.cons_append, hasDoubleWs_cons] at h
    obtain ⟨h1, h2⟩ := Bool.or_eq_false_iff.mp h
    rw [hasDoubleWs_cons, ih h2, Bool.or_false]
    cases l1 with
    | nil => simp [headWs]
    | cons b l1' =>
      have : headWs (b :: l1' ++ l2) = headWs (b :: l1') := rfl
      rw [← this]
      exact h1

theorem headWs_append_cons (l1 : Str) (x : Char) (l2 : Str) :
    headWs (l1 ++ x :: l2) = (if l1.isEmpty then jsWs x else headWs l1) := by
  cases l1 <;> simp [headWs]

theorem hasDoubleWs_sandwich (l1 : Str) (x : Char) (l2 : Str)
    (hx : jsWs x = false) (h1 : hasDoubleWs l1 = false) (h2 : hasDoubleWs l2 = false) :
    hasDoubleWs (l1 ++ x :: l2) = false := by
  induction l1 with
  | nil =>
    rw [List.nil_append, hasDoubleWs_cons, hx]
    simp [h2]
  | cons a l1 ih =>
    rw [hasDoubleWs_cons] at h1
    obtain ⟨ha, hl1⟩ := Bool.or_eq_false_iff.mp h1
    rw [List.cons_append, hasDoubleWs_cons, ih hl1, Bool.or_false,
      headWs_append_cons]
    cases l1 with
    | nil => simp [hx, Bool.and_false]
    | cons b l1' =>
      simpa [List.isEmpty] using ha

theorem hasDoubleWs_mid (l1 : Str) (x : Char) (l2 : Str)
    (h1 : hasDoubleWs l1 = false) (hlast : lastWs l1 = false)
    (hhead : headWs l2 = false) (h2 : hasDoubleWs l2 = false) :
    hasDoubleWs (l1 ++ x :: l2) = false := by
  induction l1 with
  | nil =>
    rw [List.nil_append, hasDoubleWs_cons, hhead]
    simp [h2]
  | cons a l1 ih =>
    rw [hasDoubleWs_cons] at h1
    obtain ⟨ha, hl1⟩ := Bool.or_eq_false_iff.mp h1
    have hlast' : lastWs l1 = false := by
      cases l1 with
      | nil => rfl
      | cons b l1' => simpa [lastWs, List.getLast?] using hlast
    rw [List.cons_append, hasDoubleWs_cons, ih hl1 hlast', Bool.or_false,
      headWs_append_cons]
    cases l1 with
    | nil =>
      have haws : jsWs a = false := by simpa [lastWs, List.getLast?] using hlast
      simp [haws]
    | cons b l1' =>
      simpa [List.isEmpty] using ha

/- ----------------------------------------------------------------
   C6: the normalization steps preserve (or establish) the
   no-adjacent-whitespace invariant
   ---------------------------------------------------------------- -/

theorem headWs_collapseWs_true : ∀ cs : Str, headWs (collapseWs true cs) = false := by
  intro cs
  induction cs with
  | nil => rfl
  | cons c cs ih =>
    cases hc : jsWs c
    · simp [collapseWs, hc, headWs]
    · simpa [collapseWs, hc] using ih

theorem hasDoubleWs_collapseWs : ∀ (cs : Str) (inWs : Bool),
    hasDoubleWs (collapseWs inWs cs) = false := by
  intro cs
  induction cs with
  | nil => intro inWs; rfl
  | cons c cs ih =>
    intro inWs
    cases hc : jsWs c
    · simp [collapseWs, hc, hasDoubleWs_cons, ih]
    · cases inWs
      · simp [collapseWs, hc, hasDoubleWs_cons, ih, headWs_collapseWs_true]
      · simp [collapseWs, hc, ih]

theorem hasDoubleWs_rmWsBeforePunct : ∀ (rest pending : Str),
    hasDoubleWs (pending ++ rest) = false →
    hasDoubleWs (rmWsBeforePunct pending rest) = false := by
  intro rest
  induction rest with
  | nil =>
    intro pending h
    simpa [rmWsBeforePunct] using (by simpa using h : hasDoubleWs pending = false)
  | cons c cs ih =>
    intro pending h
    have hcs : hasDoubleWs cs = false := by
      have h2 := hasDoubleWs_append_right pending (c :: cs) h
      rw [hasDoubleWs_cons] at h2
      exact (Bool.or_eq_false_iff.mp h2).2
    cases hws : jsWs c
    · cases hp : isPunctCls c
      · -- neither whitespace nor punctuation: emit pending, c, recurse
        have hout : rmWsBeforePunct pending (c :: cs) =
            pending ++ c :: rmWsBeforePunct [] cs := by
          simp [rmWsBeforePunct, hws, hp]
        rw [hout]
        exact hasDoubleWs_sandwich pending c (rmWsBeforePunct [] cs) hws
          (hasDoubleWs_append_left pending (c :: cs) h) (ih [] (by simpa using hcs))
      · -- punctuation: drop the pending run
        have hout : rmWsBeforePunct pending (c :: cs) = c :: rmWsBeforePunct [] cs := by
          simp [rmWsBeforePunct, hws, hp]
        rw [hout, hasDoubleWs_cons, hws]
        simp [ih [] (by simpa using hcs)]
    · -- whitespace: extend the pending run
      have hout : rmWsBeforePunct pending (c :: cs) = rmWsBeforePunct (pending ++ [c]) cs := by
        simp [rmWsBeforePunct, hws]
      rw [hout]
      exact ih (pending ++ [c]) (by simpa [List.append_assoc] using h)

theorem headWs_rmWsAfterParen : ∀ (l : Str) (st : Bool),
    headWs (rmWsAfterParen st l) = true → headWs l = true := by
  intro l
  induction l with
  | nil => intro st h; simpa [rmWsAfterParen] using h
  | cons c cs ih =>
    intro st h
    cases hcond : (st && jsWs c)
    · rw [show rmWsAfterParen st (c :: cs) = c :: rmWsAfterParen (decide (c = '(')) cs from by
        simp [rmWsAfterParen, hcond]] at h
      exact h
    · rw [show rmWsAfterParen st (c :: cs) = rmWsAfterParen true cs from by
        simp [rmWsAfterParen, hcond]] at h
      have hcws : jsWs c = true :=
        ((by simpa using hcond : st = true ∧ jsWs c = true)).2
      simp [headWs, hcws]

theorem hasDoubleWs_rmWsAfterParen : ∀ (l : Str) (st : Bool),
    hasDoubleWs l = false → hasDoubleWs (rmWsAfterParen st l) = false := by
  intro l
  induction l with
  | nil => intro st _; rfl
  | cons c cs ih =>
    intro st h
    rw [hasDoubleWs_cons] at h
    obtain ⟨hpair, htail⟩ := Bool.or_eq_false_iff.mp h
    cases hcond : (st && jsWs c)
    · rw [show rmWsAfterParen st (c :: cs) = c :: rmWsAfterParen (decide (c = '(')) cs from by
        simp [rmWsAfterParen, hcond]]
      rw [hasDoubleWs_cons, ih _ htail, Bool.or_false]
      cases hhead : headWs (rmWsAfterParen (decide (c = '(')) cs)
      · simp
      · have := headWs_rmWsAfterParen cs _ hhead
        rw [this] at hpair
        simp [hpair]
    · rw [show rmWsAfterParen st (c :: cs) = rmWsAfterParen true cs from by
        simp [rmWsAfterParen, hcond]]
      exact ih true htail

theorem headWs_addSpaceAfterPunct (l : Str) :
    headWs (addSpaceAfterPunct l) = headWs l := by
  cases l with
  | nil => rfl
  | cons c cs =>
    cases hp : isPunctSp c
    · simp [addSpaceAfterPunct, hp, headWs]
    · cases cs with
      | nil => simp [addSpaceAfterPunct, hp, headWs]
      | cons d ds => cases hd : jsWs d <;> simp [addSpaceAfterPunct, hp, hd, headWs]

theorem hasDoubleWs_addSpaceAfterPunct : ∀ l : Str,
    hasDoubleWs l = false → hasDoubleWs (addSpaceAfterPunct l) = false := by
  intro l
  induction l with
  | nil => intro _; rfl
  | cons c cs ih =>
    intro h
    rw [hasDoubleWs_cons] at h
    obtain ⟨hpair, htail⟩ := Bool.or_eq_false_iff.mp h
    cases hp : isPunctSp c
    · rw [show addSpaceAfterPunct (c :: cs) = c :: addSpaceAfterPunct cs from by
        cases cs <;> simp [addSpaceAfterPunct, hp]]
      rw [hasDoubleWs_cons, headWs_addSpaceAfterPunct, ih htail, hpair]
      simp
    · have hcws : jsWs c = false := jsWs_false_of_isPunctSp c hp
      cases cs with
      | nil => simp [addSpaceAfterPunct, hp, hasDoubleWs]
      | cons d ds =>
        cases hd : jsWs d
        · rw [show addSpaceAfterPunct (c :: d :: ds) = c :: ' ' :: addSpaceAfterPunct (d :: ds)
            from by simp [addSpaceAfterPunct, hp, hd]]
          rw [hasDoubleWs_cons, hasDoubleWs_cons, headWs_addSpaceAfterPunct, ih htail, hcws]
          simp [headWs, hd]
        · rw [show addSpaceAfterPunct (c :: d :: ds) = c :: addSpaceAfterPunct (d :: ds)
            from by simp [addSpaceAfterPunct, hp, hd]]
          rw [hasDoubleWs_cons, headWs_addSpaceAfterPunct, ih htail, hcws]
          simp

theorem hasDoubleWs_dropWhile (l : Str) (h : hasDoubleWs l = false) :
    hasDoubleWs (l.dropWhile jsWs) = false := by
  induction l with
  | nil => exact h
  | cons c cs ih =>
    rw [hasDoubleWs_cons] at h
    obtain ⟨hpair, htail⟩ := Bool.or_eq_false_iff.mp h
    cases hc : jsWs c
    · rw [List.dropWhile_cons, hc]
      simp only [Bool.false_eq_true, if_false]
      rw [hasDoubleWs_cons]
      simp [hpair, htail]
    · rw [List.dropWhile_cons, hc]
      simp only [if_true]
      exact ih htail

theorem trimEnd_head_cases : ∀ l : Str, trimEnd l = [] ∨ (trimEnd l).head? = l.head? := by
  intro l
  induction l with
  | nil => exact Or.inl rfl
  | cons c cs _ =>
    cases ht : trimEnd cs with
    | nil =>
      cases hc : jsWs c
      · exact Or.inr (by simp [trimEnd, ht, hc])
      · exact Or.inl (by simp [trimEnd, ht, hc])
    | cons b r => exact Or.inr (by simp [trimEnd, ht])

theorem hasDoubleWs_trimEnd : ∀ l : Str,
    hasDoubleWs l = false → hasDoubleWs (trimEnd l) = false := by
  intro l
  induction l with
  | nil => intro _; rfl
  | cons c cs ih =>
    intro h
    rw [hasDoubleWs_cons] at h
    obtain ⟨hpair, htail⟩ := Bool.or_eq_false_iff.mp h
    cases ht : trimEnd cs with
    | nil =>
      cases hc : jsWs c <;> simp [trimEnd, ht, hc, hasDoubleWs]
    | cons b r =>
      have hout : trimEnd (c :: cs) = c :: b :: r := by simp [trimEnd, ht]
      rw [hout, hasDoubleWs_cons]
      have htrim := ih htail
      rw [ht] at htrim
      rw [htrim, Bool.or_false]
      rcases trimEnd_head_cases cs with h0 | h0
      · rw [h0] at ht; cases ht
      · rw [ht] at h0
        cases cs with
        | nil => cases ht
        | cons d ds =>
          have hbd : b = d := by simpa using h0
          subst hbd
          simpa [headWs] using hpair

theorem trimEnd_getLast_not_ws : ∀ l : Str,
    trimEnd l = [] ∨ ∃ c, (trimEnd l).getLast? = some c ∧ jsWs c = false := by
  intro l
  induction l with
  | nil => exact Or.inl rfl
  | cons c cs ih =>
    cases ht : trimEnd cs with
    | nil =>
      cases hc : jsWs c
      · exact Or.inr ⟨c, by simp [trimEnd, ht, hc], hc⟩
      · exact Or.inl (by simp [trimEnd, ht, hc])
    | cons b r =>
      rcases ih with h0 | ⟨d, hd, hdws⟩
      · rw [h0] at ht; cases ht
      · refine Or.inr ⟨d, ?_, hdws⟩
        have hout : trimEnd (c :: cs) = c :: b :: r := by simp [trimEnd, ht]
        rw [hout]
        rw [ht] at hd
        simpa [List.getLast?] using hd

theorem trimEnd_cons_not_ws (c : Char) (cs : Str) (h : jsWs c = false) :
    ∃ rest, trimEnd (c :: cs) = c :: rest := by
  cases ht : trimEnd cs with
  | nil => exact ⟨[], by simp [trimEnd, ht, h]⟩
  | cons b r => exact ⟨b :: r, by simp [trimEnd, ht]⟩

theorem trimEnd_eq_self : ∀ (l : Str) (c : Char),
    l.getLast? = some c → jsWs c = false → trimEnd l = l := by
  intro l
  induction l with
  | nil => intro c h _; cases h
  | cons a l' ih =>
    intro c h hws
    cases l' with
    | nil =>
      have hac : a = c := by simpa [List.getLast?] using h
      subst hac
      simp [trimEnd, hws]
    | cons b l'' =>
      have h' : (b :: l'').getLast? = some c := by
        simpa [List.getLast?_cons_cons] using h
      have ht := ih c h' hws
      rw [show trimEnd (a :: b :: l'') =
          (match trimEnd (b :: l'') with
           | [] => if jsWs a then [] else [a]
           | r => a :: r) from rfl, ht]

theorem hasDoubleWs_capitalize (l : Str) :
    hasDoubleWs (capitalize l) = hasDoubleWs l := by
  cases l with
  | nil => rfl
  | cons c cs =>
    rw [show capitalize (c :: cs) = jsToUpperChar c :: cs from rfl]
    rw [hasDoubleWs_cons, hasDoubleWs_cons, jsWs_jsToUpperChar]

theorem hasDoubleWs_normalizeWhitespace (s : Str) :
    hasDoubleWs (normalizeWhitespace s) = false := by
  unfold normalizeWhitespace jsTrim
  apply hasDoubleWs_trimEnd
  apply hasDoubleWs_dropWhile
  apply hasDoubleWs_addSpaceAfterPunct
  apply hasDoubleWs_rmWsAfterParen
  apply hasDoubleWs_rmWsBeforePunct
  simpa using hasDoubleWs_collapseWs s false

/- ----------------------------------------------------------------
   C6: formatSentence establishes all three text invariants
   ---------------------------------------------------------------- -/

theorem headWs_false_of_headIsAlpha (l : Str) (h : headIsAlpha l = true) :
    headWs l = false := by
  cases l with
  | nil => rfl
  | cons c cs =>
    have : isAsciiLetter c = true := by simpa [headIsAlpha] using h
    simpa [headWs] using jsWs_false_of_isAsciiLetter c this

theorem lastWs_false_of_getLast_terminal (l : Str) (c : Char)
    (h : l.getLast? = some c) (ht : isTerminalPunct c = true) : lastWs l = false := by
  unfold lastWs
  rw [h]
  exact jsWs_false_of_isTerminalPunct c ht

theorem endsWithPunctuation_of_getLast_terminal (l : Str) (c : Char)
    (h : l.getLast? = some c) (ht : isTerminalPunct c = true) :
    endsWithPunctuation l = true := by
  have hne : l.isEmpty = false := by
    cases l
    · cases h
    · rfl
  have htrim : trimEnd l = l := trimEnd_eq_self l c h (jsWs_false_of_isTerminalPunct c ht)
  simp only [endsWithPunctuation, hne, Bool.false_eq_true, if_false, htrim, h]
  exact isEndPunct_of_isTerminalPunct c ht

theorem isCapitalized_cons_of_upper (c : Char) (t : Str)
    (halpha : isAsciiLetter c = true) (hup : c = jsToUpperChar c) :
    isCapitalized (c :: t) = true := by
  simp only [isCapitalized, List.isEmpty_cons, Bool.false_eq_true, if_false]
  rw [List.find?_cons_of_pos _ halpha]
  simp [← hup]

theorem isCapitalized_cons_upper (c : Char) (t : Str)
    (halpha : isAsciiLetter c = true) (h : isCapitalized (c :: t) = true) :
    c = jsToUpperChar c := by
  simp only [isCapitalized, List.isEmpty_cons, Bool.false_eq_true, if_false] at h
  rw [List.find?_cons_of_pos _ halpha] at h
  simpa using h

theorem formatSentence_props (s p : Str)
    (hp : p = str (".") ∨ p = str ("?"))
    (hfirst : headIsAlpha (normalizeWhitespace s) = true) :
    ∃ u body lastc,
      formatSentence s p = u :: body ∧
      u = jsToUpperChar u ∧
      isAsciiLetter u = true ∧
      (u :: body).getLast? = some lastc ∧
      isTerminalPunct lastc = true ∧
      hasDoubleWs (u :: body) = false := by
  cases hnorm : normalizeWhitespace s with
  | nil => rw [hnorm] at hfirst; cases hfirst
  | cons c₀ rest =>
    rw [hnorm] at hfirst
    have hc₀ : isAsciiLetter c₀ = true := by simpa [headIsAlpha] using hfirst
    have hcap : capitalize (normalizeWhitespace s) = jsToUpperChar c₀ :: rest := by
      rw [hnorm]; rfl
    have hu_alpha : isAsciiLetter (jsToUpperChar c₀) = true :=
      isAsciiLetter_jsToUpperChar c₀ hc₀
    have hu_ws : jsWs (jsToUpperChar c₀) = false := by
      rw [jsWs_jsToUpperChar]; exact jsWs_false_of_isAsciiLetter c₀ hc₀
    have hu_idem : jsToUpperChar c₀ = jsToUpperChar (jsToUpperChar c₀) :=
      (jsToUpperChar_idem c₀).symm
    have hnd : hasDoubleWs (jsToUpperChar c₀ :: rest) = false := by
      have h1 := hasDoubleWs_normalizeWhitespace s
      have h2 := hasDoubleWs_capitalize (normalizeWhitespace s)
      rw [hcap] at h2
      rw [h2]
      exact h1
    obtain ⟨rest', htrim⟩ := trimEnd_cons_not_ws (jsToUpperChar c₀) rest hu_ws
    have hnd' : hasDoubleWs (jsToUpperChar c₀ :: rest') = false := by
      have := hasDoubleWs_trimEnd (jsToUpperChar c₀ :: rest) hnd
      rwa [htrim] at this
    rcases trimEnd_getLast_not_ws (jsToUpperChar c₀ :: rest) with h0 | ⟨lc, hlc, hlcws⟩
    · rw [htrim] at h0; cases h0
    · rw [htrim] at hlc
      have hfs : formatSentence s p = ensureEndPunctuation (jsToUpperChar c₀ :: rest) p := by
        unfold formatSentence
        rw [hcap]
      have hee : ensureEndPunctuation (jsToUpperChar c₀ :: rest) p =
          (if isTerminalPunct lc then jsToUpperChar c₀ :: rest'
           else (jsToUpperChar c₀ :: rest') ++ p) := by
        simp only [ensureEndPunctuation, htrim, hlc]
      cases htp : isTerminalPunct lc
      · -- not already terminal: append the default punctuation
        rcases hp with rfl | rfl
        · refine ⟨jsToUpperChar c₀, rest' ++ str ("."), '.', ?_, hu_idem, hu_alpha, ?_, rfl, ?_⟩
          · rw [hfs, hee, htp]; simp
          · rw [show jsToUpperChar c₀ :: (rest' ++ str (".")) =
                (jsToUpperChar c₀ :: rest') ++ [('.' : Char)] from by simp [str]]
            exact List.getLast?_concat _
          · rw [show jsToUpperChar c₀ :: (rest' ++ str (".")) =
                (jsToUpperChar c₀ :: rest') ++ '.' :: ([] : Str) from by simp [str]]
            exact hasDoubleWs_sandwich _ _ _ rfl hnd' rfl
        · refine ⟨jsToUpperChar c₀, rest' ++ str ("?"), '?', ?_, hu_idem, hu_alpha, ?_, rfl, ?_⟩
          · rw [hfs, hee, htp]; simp
          · rw [show jsToUpperChar c₀ :: (rest' ++ str ("?")) =
                (jsToUpperChar c₀ :: rest') ++ [('?' : Char)] from by simp [str]]
            exact List.getLast?_concat _
          · rw [show jsToUpperChar c₀ :: (rest' ++ str ("?")) =
                (jsToUpperChar c₀ :: rest') ++ '?' :: ([] : Str) from by simp [str]]
            exact hasDoubleWs_sandwich _ _ _ rfl hnd' rfl
      · -- already ends in terminal punctuation: keep as is
        refine ⟨jsToUpperChar c₀, rest', lc, ?_, hu_idem, hu_alpha, hlc, htp, hnd'⟩
        rw [hfs, hee, htp]
        simp

theorem formatSentence_invariants (s p : Str)
    (hp : p = str (".") ∨ p = str ("?"))
    (hfirst : headIsAlpha (normalizeWhitespace s) = true) :
    isCapitalized (formatSentence s p) = true ∧
    endsWithPunctuation (formatSentence s p) = true ∧
    hasNoDoubleSpaces (formatSentence s p) = true ∧
    headIsAlpha (formatSentence s p) = true ∧
    ∃ c, (formatSentence s p).getLast? = some c ∧ isTerminalPunct c = true := by
  obtain ⟨u, body, lastc, hout, hidem, halpha, hlast, hterm, hnd⟩ :=
    formatSentence_props s p hp hfirst
  rw [hout]
  refine ⟨?_, ?_, ?_, ?_, lastc, hlast, hterm⟩
  · exact isCapitalized_cons_of_upper u body halpha hidem
  · exact endsWithPunctuation_of_getLast_terminal _ lastc hlast hterm
  · simp [hasNoDoubleSpaces, hnd]
  · simpa [headIsAlpha] using halpha

theorem joinWithSpace_props : ∀ fs : List Str,
    (∀ f ∈ fs, headIsAlpha f = true ∧ isCapitalized f = true ∧ hasDoubleWs f = false ∧
      ∃ c, f.getLast? = some c ∧ isTerminalPunct c = true) →
    fs ≠ [] →
    (isCapitalized (joinWithSpace fs) = true ∧
     headIsAlpha (joinWithSpace fs) = true ∧
     hasDoubleWs (joinWithSpace fs) = false ∧
     ∃ c, (joinWithSpace fs).getLast? = some c ∧ isTerminalPunct c = true) := by
  intro fs
  induction fs with
  | nil => intro _ hne; exact absurd rfl hne
  | cons f fs ih =>
    intro hall _
    obtain ⟨hfa, hfc, hfd, cf, hcf, hcft⟩ := hall f (by simp)
    cases fs with
    | nil => exact ⟨hfc, hfa, hfd, cf, hcf, hcft⟩
    | cons g gs =>
      obtain ⟨hjc, hja, hjd, cj, hcj, hcjt⟩ :=
        ih (fun f' hf' => hall f' (by simp [hf'])) (by simp)
      cases hfcase : f with
      | nil => rw [hfcase] at hfa; cases hfa
      | cons c t =>
        rw [hfcase] at hfa hfc hfd hcf
        have hcalpha : isAsciiLetter c = true := by simpa [headIsAlpha] using hfa
        have hcup : c = jsToUpperChar c := isCapitalized_cons_upper c t hcalpha hfc
        have hJne : joinWithSpace (g :: gs) ≠ [] := by
          intro h0
          rw [h0] at hcj
          cases hcj
        rw [show joinWithSpace ((c :: t) :: g :: gs) =
            (c :: t) ++ ' ' :: joinWithSpace (g :: gs) from rfl]
        have hshape : (c :: t) ++ ' ' :: joinWithSpace (g :: gs) =
            c :: (t ++ ' ' :: joinWithSpace (g :: gs)) := rfl
        refine ⟨?_, ?_, ?_, cj, ?_, hcjt⟩
        · rw [hshape]
          exact isCapitalized_cons_of_upper c _ hcalpha hcup
        · rw [hshape]
          simpa [headIsAlpha] using hcalpha
        · exact hasDoubleWs_mid (c :: t) ' ' (joinWithSpace (g :: gs)) hfd
            (lastWs_false_of_getLast_terminal _ cf hcf hcft)
            (headWs_false_of_headIsAlpha _ hja) hjd
        · rw [List.getLast?_append]
          cases hJcase : joinWithSpace (g :: gs) with
          | nil => exact absurd hJcase hJne
          | cons j js =>
            rw [List.getLast?_cons_cons]
            rw [hJcase] at hcj
            simp [hcj]

/-- C6: a sentence produced by any of the builders - every builder
pipes its token join through `formatSentence` with terminal
punctuation `.` or `?` - is capitalized, ends in terminal punctuation
and contains no run of two or more whitespace characters; likewise a
paragraph, which joins such formatted sentences with single spaces.
The hypotheses say only that the raw text of each sentence starts
(after whitespace normalization) with an ASCII letter, which holds for
every builder output since every template begins with a word from the
word tables. -/
theorem C6_sentence_paragraph_invariants (s p : Str) (ss : List Str)
    (hp : p = str (".") ∨ p = str ("?"))
    (hs : headIsAlpha (normalizeWhitespace s) = true)
    (hss : ∀ s' ∈ ss, headIsAlpha (normalizeWhitespace s') = true) :
    (isCapitalized (formatSentence s p) = true ∧
     endsWithPunctuation (formatSentence s p) = true ∧
     hasNoDoubleSpaces (formatSentence s p) = true) ∧
    (isCapitalized (formatParagraph ss) = true ∧
     endsWithPunctuation (formatParagraph ss) = true ∧
     hasNoDoubleSpaces (formatParagraph ss) = true) := by
  constructor
  · obtain ⟨h1, h2, h3, -, -⟩ := formatSentence_invariants s p hp hs
    exact ⟨h1, h2, h3⟩
  · cases ss with
    | nil => exact ⟨rfl, rfl, rfl⟩
    | cons s0 rest =>
      have hall : ∀ f ∈ (s0 :: rest).map (fun s' => formatSentence s'),
          headIsAlpha f = true ∧ isCapitalized f = true ∧ hasDoubleWs f = false ∧
          ∃ c, f.getLast? = some c ∧ isTerminalPunct c = true := by
        intro f hf
        obtain ⟨s', hs', rfl⟩ := List.mem_map.mp hf
        obtain ⟨h1, h2, h3, h4, h5⟩ :=
          formatSentence_invariants s' (str (".")) (Or.inl rfl) (hss s' hs')
        refine ⟨h4, h1, ?_, h5⟩
        simpa [hasNoDoubleSpaces] using h3
      obtain ⟨hc, -, hd, cj, hcj, hcjt⟩ :=
        joinWithSpace_props ((s0 :: rest).map (fun s' => formatSentence s')) hall (by simp)
      refine ⟨hc, ?_, ?_⟩
      · exact endsWithPunctuation_of_getLast_terminal _ cj hcj hcjt
      · simp [formatParagraph, hasNoDoubleSpaces] at hd ⊢
        exact hd

theorem C6_sentence_paragraph_invariants_witness :
    (isCapitalized (formatSentence (str ("hello  world")) (str ("."))) = true ∧
     endsWithPunctuation (formatSentence (str ("hello  world")) (str ("."))) = true ∧
     hasNoDoubleSpaces (formatSentence (str ("hello  world")) (str ("."))) = true) ∧
    (isCapitalized (formatParagraph [str ("alpha beta"), str ("gamma")]) = true ∧
     endsWithPunctuation (formatParagraph [str ("alpha beta"), str ("gamma")]) = true ∧
     hasNoDoubleSpaces (formatParagraph [str ("alpha beta"), str ("gamma")]) = true) :=
  C6_sentence_paragraph_invariants (str ("hello  world")) (str ("."))
    [str ("alpha beta"), str ("gamma")] (Or.inl rfl) (by decide) (by decide)

end Marlarky
